import Mathlib

/-!
Verification development for UUID.js 3.0 beta (src/uuid.js).

The JavaScript source is shallowly embedded below.  JS numbers are modelled
as exact values: integers as Int, the unit-interval outputs of Math.random()
as Rat, and every 32-bit JS operator (ToInt32 / ToUint32 wrapping, bitwise
and, or, the three shifts, the fmod-style remainder) is spelled out on the
two's complement bit pattern.  The one arithmetic step of the source whose
binary64 evaluation is not exact - the product (ts / 0x100000000) * 10000 of
the time-field split, whose exact value needs more than 53 significant bits
once 625 * ts reaches 2^53 - is modelled with the explicit IEEE-754 round to
nearest, ties to even, of its significand (rne53 below); every other
operation performed by the source on reachable values stays inside the exact
range of binary64.  Stateful code (the version-1 generator) is embedded
by explicit state passing; the wall clock reading and every Math.random()
draw are explicit parameters; fallible code (UUID.parse, the NaN result of
UUID._getRandomInt) returns Option.
-/

attribute [local semireducible] Rat.mul Rat.add Rat.sub Rat.inv

/-- Bit pattern in [0, 2^32) of an integer reduced modulo 2^32, the common first
step of the JS ToInt32 and ToUint32 conversions. -/
def pat32 (a : ℤ) : ℕ := (a % 4294967296).toNat

/-- Signed 32-bit integer denoted by a bit pattern in [0, 2^32) (two's
complement reinterpretation, the final step of ToInt32). -/
def ofPat32 (m : ℕ) : ℤ := if m < 2147483648 then (m : ℤ) else (m : ℤ) - 4294967296

/-- Truncation toward zero of a rational number, as ToInt32 applies to a JS
number before wrapping. -/
def ratTrunc (q : ℚ) : ℤ := if q < 0 then -⌊-q⌋ else ⌊q⌋

/-- ToInt32 of a (real-valued) JS number: truncate toward zero, wrap modulo
2^32, reinterpret as signed.  This models the JS coercion performed by the
bitwise-or in expressions of the form 0 | e. -/
def jsToInt32 (q : ℚ) : ℤ := ofPat32 (pat32 (ratTrunc q))

/-- JS bitwise and: both operands through ToInt32, bitwise and of the 32-bit
patterns, result read back as signed. -/
def jsAnd (a b : ℤ) : ℤ := ofPat32 (pat32 a &&& pat32 b)

/-- JS bitwise or on integer operands. -/
def jsOr (a b : ℤ) : ℤ := ofPat32 (pat32 a ||| pat32 b)

/-- JS left shift a << k for a shift count already reduced modulo 32. -/
def jsShl (a : ℤ) (k : ℕ) : ℤ := ofPat32 ((pat32 a <<< (k % 32)) % 4294967296)

/-- JS sign-propagating right shift a >> k: arithmetic shift of the signed
32-bit value, i.e. floor division by the power of two. -/
def jsShrS (a : ℤ) (k : ℕ) : ℤ := ofPat32 (pat32 a) / 2 ^ (k % 32)

/-- JS zero-fill right shift a >>> k: logical shift of the 32-bit pattern. -/
def jsShrU (a : ℤ) (k : ℕ) : ℤ := ((pat32 a >>> (k % 32) : ℕ) : ℤ)

/-- JS remainder a % b (fmod convention: the sign follows the dividend), for
the positive divisors used in the source. -/
def jsMod (a b : ℤ) : ℤ := if a < 0 then -((-a) % b) else a % b

/-- Little-endian base-b digit list, computed with explicit fuel.  The source
recursion n to n / b of number-to-string conversion strictly decreases n, so
fuel n suffices. -/
def digitsFuel (b : ℕ) : ℕ → ℕ → List ℕ
  | 0, _ => []
  | f + 1, n => if n = 0 then [] else n % b :: digitsFuel b f (n / b)

/-- Model of num.toString(radix) for a nonnegative integer: minimal base-radix
digit string, lowercase letters, and the single digit 0 for zero. -/
def jsNatToString (radix n : ℕ) : String :=
  if n = 0 then "0" else String.mk (((digitsFuel radix n n).map Nat.digitChar).reverse)

/-- Model of num.toString(radix) for an arbitrary integer (a leading minus sign
for negative values, as in JS). -/
def jsIntToString (radix : ℕ) (v : ℤ) : String :=
  if v < 0 then "-" ++ jsNatToString radix (-v).toNat else jsNatToString radix v.toNat

/-- Zero-padding loop of UUID._getIntAligner: while i > 0, prepend z to the
accumulator when the low bit of i is set, then halve i and double z.  The
first argument is fuel; fuel at least i suffices because i is halved each
step.  A nonpositive JS pad count skips the loop, which the truncated Nat
subtraction at the call site reproduces. -/
def alignLoop : ℕ → ℕ → String → String → String
  | 0, _, _, acc => acc
  | _ + 1, 0, _, acc => acc
  | f + 1, i + 1, z, acc =>
      alignLoop f ((i + 1) / 2) (z ++ z) (if (i + 1) % 2 = 1 then z ++ acc else acc)

/-- UUID._getIntAligner(radix) applied to (num, length): num.toString(radix)
left-padded with zero characters up to the requested length. -/
def UUID._getIntAligner (radix : ℕ) (num : ℤ) (len : ℕ) : String :=
  let hex := jsIntToString radix num
  alignLoop (len - hex.length) (len - hex.length) "0" hex

/-- Character test for the regex class [0-9a-f] under the /i flag, stated on
character codes. -/
def isHexDigit (c : Char) : Bool :=
  (48 ≤ c.toNat && c.toNat ≤ 57) || (97 ≤ c.toNat && c.toNat ≤ 102)
    || (65 ≤ c.toNat && c.toNat ≤ 70)

/-- Numeric value of one hexadecimal digit character, as used by
parseInt(g, 16) on the captured groups. -/
def hexVal (c : Char) : ℕ :=
  if c.toNat ≤ 57 then c.toNat - 48
  else if 97 ≤ c.toNat then c.toNat - 87
  else c.toNat - 55

/-- Value of a most-significant-first string of hexadecimal digits
(parseInt(g, 16) on a fully hexadecimal string). -/
def hexToNat (l : List Char) : ℕ := l.foldl (fun a c => 16 * a + hexVal c) 0

/-- UUID object: the six fields in the three stored representations together
with the derived version nibble and the two whole-value strings - exactly the
instance fields populated by UUID.prototype._init. -/
structure UUID where
  intFields : List ℤ
  bitFields : List String
  hexFields : List String
  version : ℤ
  bitString : String
  hexString : String
deriving DecidableEq, Repr

/-- Named alias intFields.timeLow kept by _init (array index 0). -/
def UUID.timeLow (u : UUID) : ℤ := u.intFields.getD 0 0

/-- Named alias intFields.timeMid (array index 1). -/
def UUID.timeMid (u : UUID) : ℤ := u.intFields.getD 1 0

/-- Named alias intFields.timeHiAndVersion (array index 2). -/
def UUID.timeHiAndVersion (u : UUID) : ℤ := u.intFields.getD 2 0

/-- Named alias intFields.clockSeqHiAndReserved (array index 3). -/
def UUID.clockSeqHiAndReserved (u : UUID) : ℤ := u.intFields.getD 3 0

/-- Named alias intFields.clockSeqLow (array index 4). -/
def UUID.clockSeqLow (u : UUID) : ℤ := u.intFields.getD 4 0

/-- Named alias intFields.node (array index 5). -/
def UUID.node (u : UUID) : ℤ := u.intFields.getD 5 0

/-- UUID.prototype._init, unrolled over the six fields with bit sizes
[32, 16, 16, 8, 8, 48] and hex sizes [8, 4, 4, 2, 2, 12].  An integer
argument goes through parseInt on its decimal string, the identity for the
magnitudes any caller in this library can produce, so arguments are stored
exactly as given: the initializer performs no masking. -/
def UUID._init (a0 a1 a2 a3 a4 a5 : ℤ) : UUID :=
  { intFields := [a0, a1, a2, a3, a4, a5]
    bitFields := [UUID._getIntAligner 2 a0 32, UUID._getIntAligner 2 a1 16,
      UUID._getIntAligner 2 a2 16, UUID._getIntAligner 2 a3 8,
      UUID._getIntAligner 2 a4 8, UUID._getIntAligner 2 a5 48]
    hexFields := [UUID._getIntAligner 16 a0 8, UUID._getIntAligner 16 a1 4,
      UUID._getIntAligner 16 a2 4, UUID._getIntAligner 16 a3 2,
      UUID._getIntAligner 16 a4 2, UUID._getIntAligner 16 a5 12]
    version := jsAnd (jsShrS a2 12) 0xF
    bitString := UUID._getIntAligner 2 a0 32 ++ UUID._getIntAligner 2 a1 16 ++
      UUID._getIntAligner 2 a2 16 ++ UUID._getIntAligner 2 a3 8 ++
      UUID._getIntAligner 2 a4 8 ++ UUID._getIntAligner 2 a5 48
    hexString := UUID._getIntAligner 16 a0 8 ++ "-" ++ UUID._getIntAligner 16 a1 4
      ++ "-" ++ UUID._getIntAligner 16 a2 4 ++ "-" ++ UUID._getIntAligner 16 a3 2
      ++ UUID._getIntAligner 16 a4 2 ++ "-" ++ UUID._getIntAligner 16 a5 12 }

/-- UUID.prototype.toString: the stored hexString. -/
def UUID.toString (u : UUID) : String := u.hexString

/-- UUID.prototype.equals: comparison of the six integer field values. -/
def UUID.equals (u v : UUID) : Bool := u.intFields == v.intFields

/-- UUID.parse: match the input against the anchored case-insensitive pattern
of 8 hex digits, hyphen, 4 hex digits, hyphen, 4 hex digits, hyphen, a 2 hex
digit group directly followed by a 2 hex digit group, hyphen, 12 hex digits;
on success decode the six captured groups with parseInt(g, 16), otherwise
return the null result. -/
def UUID.parse (strId : String) : Option UUID :=
  let cs := strId.data
  if cs.length = 36 ∧ cs[8]? = some '-' ∧ cs[13]? = some '-' ∧ cs[18]? = some '-'
      ∧ cs[23]? = some '-'
      ∧ (cs.take 8).all isHexDigit = true
      ∧ ((cs.drop 9).take 4).all isHexDigit = true
      ∧ ((cs.drop 14).take 4).all isHexDigit = true
      ∧ ((cs.drop 19).take 2).all isHexDigit = true
      ∧ ((cs.drop 21).take 2).all isHexDigit = true
      ∧ ((cs.drop 24).take 12).all isHexDigit = true
  then some (UUID._init (hexToNat (cs.take 8) : ℤ) (hexToNat ((cs.drop 9).take 4) : ℤ)
      (hexToNat ((cs.drop 14).take 4) : ℤ) (hexToNat ((cs.drop 19).take 2) : ℤ)
      (hexToNat ((cs.drop 21).take 2) : ℤ) (hexToNat ((cs.drop 24).take 12) : ℤ))
  else none

/-- UUID._getRandomInt(x), with the one or two Math.random() draws it consumes
passed explicitly; r2 is read only on the two-draw branch 30 < x <= 53.  The
NaN results for x < 0 and x > 53 are the None value.  For 0 <= x <= 30 the JS
shift 1 << x equals 2^x exactly. -/
def UUID._getRandomInt (r1 r2 : ℚ) (x : ℤ) : Option ℤ :=
  if x < 0 then none
  else if x ≤ 30 then some (jsToInt32 (r1 * 2 ^ x.toNat))
  else if x ≤ 53 then
    some (jsToInt32 (r1 * 2 ^ (30 : ℕ)) + jsToInt32 (r2 * 2 ^ (x - 30).toNat) * 2 ^ (30 : ℕ))
  else none

/-- UUID.genV4, with the eight Math.random() draws passed explicitly in
evaluation order: q1 and q2 feed rand(32); q3 feeds rand(16); q4 rand(12);
q5 rand(6); q6 rand(8); q7 and q8 feed rand(48).  Single-draw calls never
read their second slot, so 0 is passed there.  The widths are literals inside
[0, 53], so the None branch of _getRandomInt is dead and getD 0 is never
exercised. -/
def UUID.genV4 (q1 q2 q3 q4 q5 q6 q7 q8 : ℚ) : UUID :=
  UUID._init ((UUID._getRandomInt q1 q2 32).getD 0)
    ((UUID._getRandomInt q3 0 16).getD 0)
    (jsOr 0x4000 ((UUID._getRandomInt q4 0 12).getD 0))
    (jsOr 0x80 ((UUID._getRandomInt q5 0 6).getD 0))
    ((UUID._getRandomInt q6 0 8).getD 0)
    ((UUID._getRandomInt q7 q8 48).getD 0)

/-- Persistent state of the version-1 generator (UUID._state). -/
structure UUIDState where
  timestamp : ℤ
  sequence : ℤ
  node : ℤ
  tick : ℤ
deriving DecidableEq, Repr

/-- UUIDState constructor: timestamp and tick start at 0, sequence is seeded
from rand(14) (draw q1), node from (rand(8) | 1) * 0x10000000000 + rand(40)
(draws q2 and then q3, q4). -/
def UUIDState.mkState (q1 q2 q3 q4 : ℚ) : UUIDState :=
  { timestamp := 0
    sequence := (UUID._getRandomInt q1 0 14).getD 0
    node := jsOr ((UUID._getRandomInt q2 0 8).getD 0) 1 * 0x10000000000
      + (UUID._getRandomInt q3 q4 40).getD 0
    tick := 0 }

/-- Milliseconds from the JS epoch back to 1582-10-15T00:00:00Z: the value of
Date.UTC(1582, 9, 15) in the proleptic Gregorian calendar (equal to minus the
RFC 4122 offset 0x01B21DD213814000 hundred-nanosecond intervals). -/
def gregorianReformMs : ℤ := -12219292800000

/-- Binary bit length of a natural number (0 for 0), computed with explicit
fuel; the value is halved each step, so fuel n suffices. -/
def bitLenFuel : ℕ → ℕ → ℕ
  | 0, _ => 0
  | f + 1, n => if n = 0 then 0 else bitLenFuel f (n / 2) + 1

/-- Binary bit length: bitLen n is the least k with n < 2 ^ k. -/
def bitLen (n : ℕ) : ℕ := bitLenFuel n n

/-- IEEE-754 round to nearest, ties to even, of a natural number to 53
significant bits: numbers of at most 53 bits are untouched, longer ones are
rounded to the nearest multiple of 2 ^ (bitLen n - 53), a tie going to the
multiple with even quotient.  This is the significand rounding a binary64
multiplication applies to an exactly computed integer product lying inside
the normal range. -/
def rne53 (n : ℕ) : ℕ :=
  let L := bitLen n
  if L ≤ 53 then n
  else
    let s := L - 53
    let q := n / 2 ^ s
    let r := n % 2 ^ s
    let half := 2 ^ (s - 1)
    if half < r ∨ (r = half ∧ q % 2 = 1) then (q + 1) * 2 ^ s else q * 2 ^ s

/-- Binary64 value of the JS product (ts / 0x100000000) * 10000.  The division
only rescales the exponent and is exact for every representable integer ts
(all reachable timestamp differences, which stay below 2^53 in magnitude);
the exact product then equals 625 * ts / 2^28, and the multiplication rounds
its significand to 53 bits, to nearest, ties to even. -/
def dblMul10000 (ts : ℤ) : ℚ :=
  if ts < 0 then -(Rat.divInt (rne53 (625 * ts.natAbs)) 268435456)
  else Rat.divInt (rne53 (625 * ts.natAbs)) 268435456

/-- Return record of UUID._getTimeFieldValues. -/
structure TimeFieldValues where
  low : ℤ
  mid : ℤ
  hi : ℤ
  timestamp : ℤ
deriving DecidableEq, Repr

/-- UUID._getTimeFieldValues(time): split the hundred-nanosecond count derived
from a millisecond timestamp into its 32-bit low part and the 28 following
bits.  The low part works on ts & 0xFFFFFFF, so every operation it performs
is exact in binary64 and it is modelled with exact integer arithmetic; the
hm product (ts / 0x100000000) * 10000 feeding mid and hi is a binary64
multiplication and carries the 53-bit significand rounding of dblMul10000. -/
def UUID._getTimeFieldValues (time : ℤ) : TimeFieldValues :=
  let ts : ℤ := time - gregorianReformMs
  let hm : ℤ := jsAnd (ratTrunc (dblMul10000 ts)) 0xFFFFFFF
  { low := jsMod (jsAnd ts 0xFFFFFFF * 10000) 4294967296
    mid := jsAnd hm 0xFFFF
    hi := jsShrU hm 16
    timestamp := ts }

/-- UUID.genV1 in explicit-state form: now is the Date().getTime() reading and
r the Math.random() draw of the tick coin, compared against the ratio
UUID._tsRatio = 1/8 (the draw is consumed only on the same-millisecond
branch).  Returns the mutated state together with the new UUID. -/
def UUID.genV1 (st : UUIDState) (now : ℤ) (r : ℚ) : UUIDState × UUID :=
  let st1 : UUIDState :=
    if now ≠ st.timestamp then
      { timestamp := now
        sequence := if now < st.timestamp then st.sequence + 1 else st.sequence
        node := st.node
        tick := 0 }
    else if r < mkRat 1 8 ∧ st.tick < 9999 then
      { st with tick := st.tick + 1 }
    else
      { st with sequence := st.sequence + 1 }
  let tf := UUID._getTimeFieldValues st1.timestamp
  let tl := tf.low + st1.tick
  let thav := jsOr (jsAnd tf.hi 0xFFF) 0x1000
  let st2 : UUIDState := { st1 with sequence := jsAnd st1.sequence 0x3FFF }
  let cshar := jsOr (jsShrU st2.sequence 8) 0x80
  let csl := jsAnd st2.sequence 0xFF
  (st2, UUID._init tl tf.mid thav cshar csl st2.node)

/-- Sequence value selected by the state-update step of genV1, before the
14-bit masking (named for use in lemma statements; the branching mirrors the
update block at the top of UUID.genV1). -/
def v1seq (st : UUIDState) (now : ℤ) (r : ℚ) : ℤ :=
  if now ≠ st.timestamp then (if now < st.timestamp then st.sequence + 1 else st.sequence)
  else if r < mkRat 1 8 ∧ st.tick < 9999 then st.sequence
  else st.sequence + 1

/-- Tick value selected by the state-update step of genV1. -/
def v1tick (st : UUIDState) (now : ℤ) (r : ℚ) : ℤ :=
  if now ≠ st.timestamp then 0
  else if r < mkRat 1 8 ∧ st.tick < 9999 then st.tick + 1
  else st.tick

/-- Specification-side reading of the canonical pattern, written from the
specification text: the string is a group of 8 hex digits, a hyphen, 4 hex
digits, a hyphen, 4 hex digits, a hyphen, 2 hex digits immediately followed
by 2 hex digits, a hyphen, and 12 hex digits. -/
def specCanonicalMatch (s : String) : Prop :=
  ∃ a b c d1 d2 e : List Char,
    a.length = 8 ∧ b.length = 4 ∧ c.length = 4 ∧ d1.length = 2 ∧ d2.length = 2
      ∧ e.length = 12
      ∧ (∀ ch ∈ a, isHexDigit ch = true) ∧ (∀ ch ∈ b, isHexDigit ch = true)
      ∧ (∀ ch ∈ c, isHexDigit ch = true) ∧ (∀ ch ∈ d1, isHexDigit ch = true)
      ∧ (∀ ch ∈ d2, isHexDigit ch = true) ∧ (∀ ch ∈ e, isHexDigit ch = true)
      ∧ s.data = a ++ '-' :: (b ++ '-' :: (c ++ '-' :: (d1 ++ d2 ++ '-' :: e)))

/-- ASCII lowercasing of a string, applied character-wise. -/
def lowercase (s : String) : String := String.mk (s.data.map Char.toLower)

/-- Character test for a lowercase hexadecimal digit (the character class the
canonical lowercase rendering draws from). -/
def isLowerHexDigit (c : Char) : Bool :=
  (48 ≤ c.toNat && c.toNat ≤ 57) || (97 ≤ c.toNat && c.toNat ≤ 102)

/-- Clock sequence read back from a UUID by the expression
((clockSeqHiAndReserved & 0x3F) << 8) | clockSeqLow. -/
def encodedClockSeq (u : UUID) : ℤ :=
  jsOr (jsShl (jsAnd u.clockSeqHiAndReserved 0x3F) 8) u.clockSeqLow

/-- Width invariant of the six integer fields, with the declared bit widths
32, 16, 16, 8, 8, 48 of the field table. -/
def fieldsInRange (u : UUID) : Prop :=
  (0 ≤ u.timeLow ∧ u.timeLow < 4294967296)
    ∧ (0 ≤ u.timeMid ∧ u.timeMid < 65536)
    ∧ (0 ≤ u.timeHiAndVersion ∧ u.timeHiAndVersion < 65536)
    ∧ (0 ≤ u.clockSeqHiAndReserved ∧ u.clockSeqHiAndReserved < 256)
    ∧ (0 ≤ u.clockSeqLow ∧ u.clockSeqLow < 256)
    ∧ (0 ≤ u.node ∧ u.node < 281474976710656)

/-! Arithmetic characterizations of the 32-bit JS operator models. -/

theorem pat32_cast (a : ℤ) : (pat32 a : ℤ) = a % 4294967296 := by
  unfold pat32
  exact Int.toNat_of_nonneg (Int.emod_nonneg a (by norm_num))

theorem pat32_lt (a : ℤ) : pat32 a < 4294967296 := by
  have h := Int.emod_lt_of_pos a (show (0 : ℤ) < 4294967296 by norm_num)
  have h2 := pat32_cast a
  omega

theorem ofPat32_of_lt {m : ℕ} (h : m < 2147483648) : ofPat32 m = m := if_pos h

theorem int32_id {a : ℤ} (h0 : 0 ≤ a) (h : a < 2147483648) : ofPat32 (pat32 a) = a := by
  have h1 := pat32_cast a
  have h2 : a % 4294967296 = a := Int.emod_eq_of_lt h0 (by omega)
  have h3 : pat32 a < 2147483648 := by omega
  rw [ofPat32_of_lt h3]
  omega

theorem jsAnd_mask (a : ℤ) (k : ℕ) (hk : k ≤ 31) : jsAnd a (2 ^ k - 1) = a % 2 ^ k := by
  have hcast : ((2 ^ k : ℕ) : ℤ) = (2 : ℤ) ^ k := by push_cast; rfl
  have hle : (2 : ℕ) ^ k ≤ 2 ^ 31 := Nat.pow_le_pow_right (by norm_num) hk
  have h31 : (2 : ℕ) ^ 31 = 2147483648 := by norm_num
  have h1 : (1 : ℕ) ≤ 2 ^ k := Nat.one_le_two_pow
  have hp : pat32 ((2 : ℤ) ^ k - 1) = 2 ^ k - 1 := by
    unfold pat32
    have h2 : ((2 : ℤ) ^ k - 1) % 4294967296 = (2 : ℤ) ^ k - 1 :=
      Int.emod_eq_of_lt (by omega) (by omega)
    rw [h2]
    omega
  unfold jsAnd
  rw [hp, Nat.and_pow_two_sub_one_eq_mod]
  have hmlt := Nat.mod_lt (pat32 a) (show 0 < 2 ^ k by omega)
  rw [ofPat32_of_lt (by omega)]
  have hdvd : (2 : ℤ) ^ k ∣ 4294967296 := by
    have h4 : (2 : ℤ) ^ k ∣ 2 ^ 32 := pow_dvd_pow 2 (by omega)
    norm_num at h4
    exact h4
  calc ((pat32 a % 2 ^ k : ℕ) : ℤ)
      = (pat32 a : ℤ) % ((2 ^ k : ℕ) : ℤ) := by push_cast; rfl
    _ = a % 4294967296 % 2 ^ k := by rw [pat32_cast, hcast]
    _ = a % 2 ^ k := Int.emod_emod_of_dvd a hdvd

theorem jsMod_of_nonneg (a b : ℤ) (h : ¬a < 0) : jsMod a b = a % b := if_neg h

theorem jsShrU_eq (a : ℤ) (k : ℕ) (hk : k < 32) (h0 : 0 ≤ a) (h : a < 4294967296) :
    jsShrU a k = a / 2 ^ k := by
  unfold jsShrU
  have h1 : k % 32 = k := Nat.mod_eq_of_lt hk
  have h2 : (pat32 a : ℤ) = a := by rw [pat32_cast, Int.emod_eq_of_lt h0 h]
  rw [h1, Nat.shiftRight_eq_div_pow]
  have h3 : ((pat32 a / 2 ^ k : ℕ) : ℤ) = (pat32 a : ℤ) / ((2 ^ k : ℕ) : ℤ) := by
    push_cast
    rfl
  rw [h3, h2]
  norm_num

theorem jsShrS_eq (a : ℤ) (k : ℕ) (hk : k < 32) (h0 : 0 ≤ a) (h : a < 2147483648) :
    jsShrS a k = a / 2 ^ k := by
  unfold jsShrS
  rw [int32_id h0 h, Nat.mod_eq_of_lt hk]

theorem jsOr_nat (a b : ℤ) (ha0 : 0 ≤ a) (ha : a < 4294967296) (hb0 : 0 ≤ b)
    (hb : b < 4294967296) (hor : a.toNat ||| b.toNat < 2147483648) :
    jsOr a b = ((a.toNat ||| b.toNat : ℕ) : ℤ) := by
  unfold jsOr
  have h1 : pat32 a = a.toNat := by have := pat32_cast a; omega
  have h2 : pat32 b = b.toNat := by have := pat32_cast b; omega
  rw [h1, h2, ofPat32_of_lt hor]

theorem jsOr_add_two_pow (b : ℤ) (k : ℕ) (hk : k ≤ 30) (hb0 : 0 ≤ b) (hb : b < 2 ^ k) :
    jsOr b (2 ^ k) = 2 ^ k + b := by
  have hcast : ((2 ^ k : ℕ) : ℤ) = (2 : ℤ) ^ k := by push_cast; rfl
  have hle : (2 : ℕ) ^ k ≤ 2 ^ 30 := Nat.pow_le_pow_right (by norm_num) hk
  have h30 : (2 : ℕ) ^ 30 = 1073741824 := by norm_num
  have hbn : b.toNat < 2 ^ k := by omega
  have hor : b.toNat ||| (2 ^ k : ℤ).toNat = 2 ^ k + b.toNat := by
    have h2 : ((2 : ℤ) ^ k).toNat = 2 ^ k := by omega
    rw [h2, Nat.lor_comm]
    have h3 := Nat.mul_add_lt_is_or hbn 1
    simpa using h3.symm
  rw [jsOr_nat b (2 ^ k) hb0 (by omega) (by positivity) (by omega) (by omega)]
  rw [hor]
  push_cast
  omega

theorem jsOr_two_pow_add (b : ℤ) (k : ℕ) (hk : k ≤ 30) (hb0 : 0 ≤ b) (hb : b < 2 ^ k) :
    jsOr (2 ^ k) b = 2 ^ k + b := by
  unfold jsOr
  have h := jsOr_add_two_pow b k hk hb0 hb
  unfold jsOr at h
  rw [Nat.lor_comm]
  exact h

theorem jsShl_small (b : ℤ) (k : ℕ) (hk : k < 32) (hb0 : 0 ≤ b)
    (hb : b * 2 ^ k < 2147483648) : jsShl b k = b * 2 ^ k := by
  unfold jsShl
  have hP : (0 : ℤ) < 2 ^ k := by positivity
  have hble : b ≤ b * 2 ^ k := le_mul_of_one_le_right hb0 (by omega)
  have h1 : pat32 b = b.toNat := by
    have := pat32_cast b
    have h4 : b % 4294967296 = b := Int.emod_eq_of_lt hb0 (by omega)
    omega
  have hcast : ((b.toNat * 2 ^ k : ℕ) : ℤ) = b * 2 ^ k := by
    push_cast
    rw [Int.toNat_of_nonneg hb0]
  have h5 : b.toNat * 2 ^ k < 2147483648 := by omega
  rw [h1, Nat.mod_eq_of_lt hk, Nat.shiftLeft_eq, Nat.mod_eq_of_lt (by omega),
    ofPat32_of_lt (by omega)]
  exact hcast

/-! Specializations of the mask and or lemmas to the literal masks of the source. -/

theorem jsAnd_m28 (a : ℤ) : jsAnd a 268435455 = a % 268435456 := by
  have h := jsAnd_mask a 28 (by norm_num)
  norm_num at h
  exact h

theorem jsAnd_m16 (a : ℤ) : jsAnd a 65535 = a % 65536 := by
  have h := jsAnd_mask a 16 (by norm_num)
  norm_num at h
  exact h

theorem jsAnd_m14 (a : ℤ) : jsAnd a 16383 = a % 16384 := by
  have h := jsAnd_mask a 14 (by norm_num)
  norm_num at h
  exact h

theorem jsAnd_m12 (a : ℤ) : jsAnd a 4095 = a % 4096 := by
  have h := jsAnd_mask a 12 (by norm_num)
  norm_num at h
  exact h

theorem jsAnd_m8 (a : ℤ) : jsAnd a 255 = a % 256 := by
  have h := jsAnd_mask a 8 (by norm_num)
  norm_num at h
  exact h

theorem jsAnd_m4 (a : ℤ) : jsAnd a 15 = a % 16 := by
  have h := jsAnd_mask a 4 (by norm_num)
  norm_num at h
  exact h

theorem jsOr_0x1000 (b : ℤ) (hb0 : 0 ≤ b) (hb : b < 4096) : jsOr b 4096 = 4096 + b := by
  have h := jsOr_add_two_pow b 12 (by norm_num) hb0 (by norm_num; omega)
  norm_num at h
  exact h

theorem jsOr_0x80 (b : ℤ) (hb0 : 0 ≤ b) (hb : b < 128) : jsOr b 128 = 128 + b := by
  have h := jsOr_add_two_pow b 7 (by norm_num) hb0 (by norm_num; omega)
  norm_num at h
  exact h

theorem jsOr_0x4000L (b : ℤ) (hb0 : 0 ≤ b) (hb : b < 16384) : jsOr 16384 b = 16384 + b := by
  have h := jsOr_two_pow_add b 14 (by norm_num) hb0 (by norm_num; omega)
  norm_num at h
  exact h

theorem jsOr_0x80L (b : ℤ) (hb0 : 0 ≤ b) (hb : b < 128) : jsOr 128 b = 128 + b := by
  have h := jsOr_two_pow_add b 7 (by norm_num) hb0 (by norm_num; omega)
  norm_num at h
  exact h

/-! Small bounded bit facts, decided exhaustively on Nat and lifted to Int. -/

set_option maxRecDepth 4096 in
theorem nat_and_c0 : ∀ n : ℕ, n < 64 → (128 + n) &&& 192 = 128 := by decide

set_option maxRecDepth 4096 in
theorem nat_and_3f : ∀ n : ℕ, n < 64 → (128 + n) &&& 63 = n := by decide

set_option maxRecDepth 8192 in
theorem nat_or_one : ∀ n : ℕ, n < 256 → (n ||| 1) % 2 = 1 ∧ n ||| 1 < 256 ∧ 1 ≤ n ||| 1 := by
  decide

theorem jsAnd_cshar_c0 (b : ℤ) (hb0 : 0 ≤ b) (hb : b < 64) : jsAnd (128 + b) 192 = 128 := by
  unfold jsAnd
  have h1 : pat32 (128 + b) = 128 + b.toNat := by
    have := pat32_cast (128 + b)
    omega
  have h2 : pat32 192 = 192 := by
    have := pat32_cast 192
    omega
  rw [h1, h2, nat_and_c0 b.toNat (by omega), ofPat32_of_lt (by norm_num)]
  norm_num

theorem jsAnd_cshar_3f (b : ℤ) (hb0 : 0 ≤ b) (hb : b < 64) : jsAnd (128 + b) 63 = b := by
  unfold jsAnd
  have h1 : pat32 (128 + b) = 128 + b.toNat := by
    have := pat32_cast (128 + b)
    omega
  have h2 : pat32 63 = 63 := by
    have := pat32_cast 63
    omega
  rw [h1, h2, nat_and_3f b.toNat (by omega), ofPat32_of_lt (by omega)]
  omega

theorem jsOr_one (a : ℤ) (ha0 : 0 ≤ a) (ha : a < 256) :
    (jsOr a 1) % 2 = 1 ∧ jsOr a 1 < 256 ∧ 1 ≤ jsOr a 1 := by
  have hn := nat_or_one a.toNat (by omega)
  have h := jsOr_nat a 1 ha0 (by omega) (by norm_num) (by norm_num)
    (by have h1 : (1 : ℤ).toNat = 1 := rfl; rw [h1]; omega)
  have h1 : (1 : ℤ).toNat = 1 := rfl
  rw [h1] at h
  rw [h]
  omega

/-! Characterization of the random integer primitive. -/

theorem ratTrunc_of_nonneg (q : ℚ) (h : 0 ≤ q) : ratTrunc q = ⌊q⌋ := if_neg (not_lt.mpr h)

theorem floor_unit_mul_nonneg (r : ℚ) (k : ℕ) (hr0 : 0 ≤ r) : 0 ≤ ⌊r * 2 ^ k⌋ :=
  Int.floor_nonneg.mpr (mul_nonneg hr0 (by positivity))

theorem floor_unit_mul_lt (r : ℚ) (k : ℕ) (hr1 : r < 1) : ⌊r * 2 ^ k⌋ < 2 ^ k := by
  rw [Int.floor_lt]
  have h2 : ((2 ^ k : ℤ) : ℚ) = 2 ^ k := by push_cast; rfl
  rw [h2]
  calc r * 2 ^ k < 1 * 2 ^ k := by
        exact mul_lt_mul_of_pos_right hr1 (by positivity)
    _ = 2 ^ k := one_mul _

theorem jsToInt32_unit (r : ℚ) (k : ℕ) (hk : k ≤ 30) (hr0 : 0 ≤ r) (hr1 : r < 1) :
    jsToInt32 (r * 2 ^ k) = ⌊r * 2 ^ k⌋ := by
  unfold jsToInt32
  rw [ratTrunc_of_nonneg _ (mul_nonneg hr0 (by positivity))]
  apply int32_id (floor_unit_mul_nonneg r k hr0)
  have h := floor_unit_mul_lt r k hr1
  have h2 : (2 : ℤ) ^ k ≤ 2 ^ 30 := pow_le_pow_right₀ (by norm_num) hk
  have h30 : (2 : ℤ) ^ 30 = 1073741824 := by norm_num
  omega

theorem getRandomInt_le30 (r1 r2 : ℚ) (x : ℤ) (h0 : 0 ≤ x) (h30 : x ≤ 30)
    (hr0 : 0 ≤ r1) (hr1 : r1 < 1) :
    UUID._getRandomInt r1 r2 x = some ⌊r1 * 2 ^ x.toNat⌋ := by
  unfold UUID._getRandomInt
  rw [if_neg (by omega), if_pos h30, jsToInt32_unit r1 x.toNat (by omega) hr0 hr1]

theorem getRandomInt_gt30 (r1 r2 : ℚ) (x : ℤ) (h30 : 30 < x) (h53 : x ≤ 53)
    (hr10 : 0 ≤ r1) (hr11 : r1 < 1) (hr20 : 0 ≤ r2) (hr21 : r2 < 1) :
    UUID._getRandomInt r1 r2 x
      = some (⌊r1 * 2 ^ (30 : ℕ)⌋ + ⌊r2 * 2 ^ (x - 30).toNat⌋ * 2 ^ (30 : ℕ)) := by
  unfold UUID._getRandomInt
  rw [if_neg (by omega), if_neg (by omega), if_pos h53,
    jsToInt32_unit r1 30 le_rfl hr10 hr11,
    jsToInt32_unit r2 (x - 30).toNat (by omega) hr20 hr21]

theorem getRandomInt_range (r1 r2 : ℚ) (x : ℤ) (h0 : 0 ≤ x) (h53 : x ≤ 53)
    (hr10 : 0 ≤ r1) (hr11 : r1 < 1) (hr20 : 0 ≤ r2) (hr21 : r2 < 1) :
    ∃ n : ℤ, UUID._getRandomInt r1 r2 x = some n ∧ 0 ≤ n ∧ n < 2 ^ x.toNat := by
  by_cases h30 : x ≤ 30
  · refine ⟨⌊r1 * 2 ^ x.toNat⌋, getRandomInt_le30 r1 r2 x h0 h30 hr10 hr11,
      floor_unit_mul_nonneg r1 x.toNat hr10, floor_unit_mul_lt r1 x.toNat hr11⟩
  · push_neg at h30
    refine ⟨_, getRandomInt_gt30 r1 r2 x h30 h53 hr10 hr11 hr20 hr21, ?_, ?_⟩
    · have ha := floor_unit_mul_nonneg r1 30 hr10
      have hb := floor_unit_mul_nonneg r2 (x - 30).toNat hr20
      positivity
    · have ha := floor_unit_mul_lt r1 30 hr11
      have hb := floor_unit_mul_lt r2 (x - 30).toNat hr21
      have hb0 := floor_unit_mul_nonneg r2 (x - 30).toNat hr20
      have hsplit : x.toNat = 30 + (x - 30).toNat := by omega
      have hpow : (2 : ℤ) ^ x.toNat = 2 ^ (30 : ℕ) * 2 ^ (x - 30).toNat := by
        rw [hsplit, pow_add]
      rw [hpow]
      have hmul : ⌊r2 * 2 ^ (x - 30).toNat⌋ * 2 ^ (30 : ℕ)
          ≤ (2 ^ (x - 30).toNat - 1) * 2 ^ (30 : ℕ) := by
        apply mul_le_mul_of_nonneg_right (by omega) (by positivity)
      nlinarith [pow_pos (show (0 : ℤ) < 2 by norm_num) ((x - 30).toNat)]

theorem getRandomInt_none (r1 r2 : ℚ) (x : ℤ) (h : x < 0 ∨ 53 < x) :
    UUID._getRandomInt r1 r2 x = none := by
  unfold UUID._getRandomInt
  rcases h with h | h
  · rw [if_pos h]
  · rw [if_neg (by omega), if_neg (by omega), if_neg (by omega)]

/-! Characterization of the time field computation. -/

theorem ratTrunc_ts (n : ℤ) (hn : 0 ≤ n) :
    ratTrunc (Rat.divInt n 4294967296 * 10000) = n * 10000 / 4294967296 := by
  have hnum : (0 : ℚ) ≤ ((n * 10000 : ℤ) : ℚ) := by
    have h1 : (0 : ℤ) ≤ n * 10000 := by omega
    exact_mod_cast h1
  have hq : Rat.divInt n 4294967296 * 10000
      = ((n * 10000 : ℤ) : ℚ) / ((4294967296 : ℕ) : ℚ) := by
    rw [Rat.divInt_eq_div]
    push_cast
    ring
  rw [hq, ratTrunc_of_nonneg _ (div_nonneg hnum (by norm_num)),
    Rat.floor_intCast_div_natCast]
  norm_num

theorem bitLenFuel_zero (f : ℕ) : bitLenFuel f 0 = 0 := by cases f <;> rfl

theorem bitLenFuel_eq (n : ℕ) : ∀ f g : ℕ, n ≤ f → n ≤ g → bitLenFuel f n = bitLenFuel g n := by
  induction n using Nat.strong_induction_on with
  | _ n ih =>
    intro f g hf hg
    by_cases h0 : n = 0
    · subst h0
      rw [bitLenFuel_zero, bitLenFuel_zero]
    · obtain ⟨f', rfl⟩ : ∃ f', f = f' + 1 := ⟨f - 1, by omega⟩
      obtain ⟨g', rfl⟩ : ∃ g', g = g' + 1 := ⟨g - 1, by omega⟩
      show (if n = 0 then 0 else bitLenFuel f' (n / 2) + 1)
        = (if n = 0 then 0 else bitLenFuel g' (n / 2) + 1)
      rw [if_neg h0, if_neg h0,
        ih (n / 2) (Nat.div_lt_self (Nat.pos_of_ne_zero h0) one_lt_two) f' g'
          (by omega) (by omega)]

theorem bitLen_rec (n : ℕ) (h0 : n ≠ 0) : bitLen n = bitLen (n / 2) + 1 := by
  obtain ⟨m, rfl⟩ : ∃ m, n = m + 1 := ⟨n - 1, by omega⟩
  show (if m + 1 = 0 then 0 else bitLenFuel m ((m + 1) / 2) + 1) = _
  rw [if_neg h0, bitLenFuel_eq ((m + 1) / 2) m ((m + 1) / 2) (by omega) le_rfl]
  rfl

theorem bitLen_le_of_lt (n : ℕ) : ∀ k : ℕ, n < 2 ^ k → bitLen n ≤ k := by
  induction n using Nat.strong_induction_on with
  | _ n ih =>
    intro k hk
    by_cases h0 : n = 0
    · subst h0
      show bitLenFuel 0 0 ≤ k
      rw [bitLenFuel_zero]
      omega
    · have hn : 1 ≤ n := Nat.pos_of_ne_zero h0
      have hk1 : 1 ≤ k := by
        by_contra hc
        push_neg at hc
        interval_cases k
        simp at hk
        omega
      have hpow : 2 ^ k = 2 * 2 ^ (k - 1) := by
        obtain ⟨k', rfl⟩ : ∃ k', k = k' + 1 := ⟨k - 1, by omega⟩
        rw [show k' + 1 - 1 = k' from rfl, pow_succ]
        ring
      have hdiv : n / 2 < 2 ^ (k - 1) := by omega
      have := ih (n / 2) (Nat.div_lt_self hn one_lt_two) (k - 1) hdiv
      rw [bitLen_rec n h0]
      omega

theorem rne53_of_lt (n : ℕ) (h : n < 2 ^ 53) : rne53 n = n := by
  have hb : bitLen n ≤ 53 := bitLen_le_of_lt n 53 h
  simp only [rne53]
  rw [if_pos hb]

theorem dblMul10000_exact (ts : ℤ) (h0 : 0 ≤ ts) (h53 : 625 * ts < 2 ^ 53) :
    dblMul10000 ts = Rat.divInt ts 4294967296 * 10000 := by
  unfold dblMul10000
  rw [if_neg (not_lt.mpr h0)]
  have hsm : 625 * ts.natAbs < 2 ^ 53 := by
    have h2 : ((2 : ℤ) ^ (53 : ℕ)) = 9007199254740992 := by norm_num
    have h3 : (2 : ℕ) ^ (53 : ℕ) = 9007199254740992 := by norm_num
    omega
  rw [rne53_of_lt (625 * ts.natAbs) hsm]
  have hcast : ((625 * ts.natAbs : ℕ) : ℤ) = 625 * ts := by
    push_cast
    rw [abs_of_nonneg h0]
  rw [hcast, Rat.divInt_eq_div, Rat.divInt_eq_div]
  push_cast
  field_simp
  ring

theorem tf_timestamp (t : ℤ) :
    (UUID._getTimeFieldValues t).timestamp = t - gregorianReformMs := rfl

theorem tf_low (t : ℤ) (_h : 0 ≤ t - gregorianReformMs) :
    (UUID._getTimeFieldValues t).low = (t - gregorianReformMs) * 10000 % 4294967296 := by
  show jsMod (jsAnd (t - gregorianReformMs) 268435455 * 10000) 4294967296 = _
  rw [jsAnd_m28]
  have h1 : 0 ≤ (t - gregorianReformMs) % 268435456 := Int.emod_nonneg _ (by norm_num)
  rw [jsMod_of_nonneg _ _ (by omega)]
  omega

theorem tf_mid (t : ℤ) (h : 0 ≤ t - gregorianReformMs)
    (h53 : 625 * (t - gregorianReformMs) < 2 ^ 53) :
    (UUID._getTimeFieldValues t).mid
      = (t - gregorianReformMs) * 10000 / 4294967296 % 65536 := by
  show jsAnd (jsAnd (ratTrunc (dblMul10000 (t - gregorianReformMs)))
      268435455) 65535 = _
  rw [dblMul10000_exact _ h h53, ratTrunc_ts _ h, jsAnd_m28, jsAnd_m16]
  omega

theorem hi_expr_range (x : ℤ) :
    0 ≤ jsShrU (jsAnd x 268435455) 16 ∧ jsShrU (jsAnd x 268435455) 16 < 4096 := by
  rw [jsAnd_m28]
  have h1 : 0 ≤ x % 268435456 := Int.emod_nonneg _ (by norm_num)
  have h2 : x % 268435456 < 268435456 := Int.emod_lt_of_pos _ (by norm_num)
  rw [jsShrU_eq _ 16 (by norm_num) h1 (by omega)]
  have h3 : (2 : ℤ) ^ (16 : ℕ) = 65536 := by norm_num
  rw [h3]
  omega

theorem tf_hi_range (t : ℤ) :
    0 ≤ (UUID._getTimeFieldValues t).hi ∧ (UUID._getTimeFieldValues t).hi < 4096 :=
  hi_expr_range _

theorem int_div_div (a : ℤ) (ha : 0 ≤ a) (b c : ℕ) :
    a / (b : ℤ) / (c : ℤ) = a / ((b * c : ℕ) : ℤ) := by
  obtain ⟨n, rfl⟩ := Int.eq_ofNat_of_zero_le ha
  calc ((n : ℤ)) / (b : ℤ) / (c : ℤ) = ((n / b / c : ℕ) : ℤ) := by
        rw [Int.ofNat_ediv, Int.ofNat_ediv]
    _ = ((n / (b * c) : ℕ) : ℤ) := by rw [Nat.div_div_eq_div_mul]
    _ = (n : ℤ) / ((b * c : ℕ) : ℤ) := by rw [Int.ofNat_ediv]

theorem tf_hi (t : ℤ) (h : 0 ≤ t - gregorianReformMs)
    (h53 : 625 * (t - gregorianReformMs) < 2 ^ 53) :
    (UUID._getTimeFieldValues t).hi
      = (t - gregorianReformMs) * 10000 / 281474976710656 % 4096 := by
  show jsShrU (jsAnd (ratTrunc (dblMul10000 (t - gregorianReformMs)))
      268435455) 16 = _
  rw [dblMul10000_exact _ h h53, ratTrunc_ts _ h, jsAnd_m28]
  have h1 : 0 ≤ (t - gregorianReformMs) * 10000 / 4294967296 % 268435456 :=
    Int.emod_nonneg _ (by norm_num)
  have h2 : (t - gregorianReformMs) * 10000 / 4294967296 % 268435456 < 268435456 :=
    Int.emod_lt_of_pos _ (by norm_num)
  rw [jsShrU_eq _ 16 (by norm_num) h1 (by omega)]
  have h3 : (2 : ℤ) ^ (16 : ℕ) = 65536 := by norm_num
  rw [h3]
  have hdd := int_div_div ((t - gregorianReformMs) * 10000) (by omega) 4294967296 65536
  norm_num at hdd
  have key : ∀ c : ℤ, c % 268435456 / 65536 = c / 65536 % 4096 := by
    intro c
    omega
  rw [key, hdd]

/-! Shape lemmas for the two generators. -/

theorem v1_cshar (s : ℤ) : jsOr (jsShrU (jsAnd s 16383) 8) 128 = 128 + s % 16384 / 256 := by
  rw [jsAnd_m14]
  have h1 : 0 ≤ s % 16384 := Int.emod_nonneg _ (by norm_num)
  have h2 : s % 16384 < 16384 := Int.emod_lt_of_pos _ (by norm_num)
  rw [jsShrU_eq _ 8 (by norm_num) h1 (by omega)]
  have h3 : (2 : ℤ) ^ (8 : ℕ) = 256 := by norm_num
  rw [h3]
  exact jsOr_0x80 _ (by omega) (by omega)

theorem v1_csl (s : ℤ) : jsAnd (jsAnd s 16383) 255 = s % 16384 % 256 := by
  rw [jsAnd_m14, jsAnd_m8]

theorem v1_thav (x : ℤ) (h0 : 0 ≤ x) (h : x < 4096) : jsOr (jsAnd x 4095) 4096 = 4096 + x := by
  rw [jsAnd_m12, Int.emod_eq_of_lt h0 h]
  exact jsOr_0x1000 x h0 h

theorem genV1_eq (st : UUIDState) (now : ℤ) (r : ℚ) :
    UUID.genV1 st now r =
      ({ timestamp := now
         sequence := v1seq st now r % 16384
         node := st.node
         tick := v1tick st now r },
       UUID._init ((UUID._getTimeFieldValues now).low + v1tick st now r)
         (UUID._getTimeFieldValues now).mid
         (4096 + (UUID._getTimeFieldValues now).hi)
         (128 + v1seq st now r % 16384 / 256)
         (v1seq st now r % 16384 % 256) st.node) := by
  obtain ⟨hhi0, hhi⟩ := tf_hi_range now
  simp only [UUID.genV1, v1seq, v1tick]
  split_ifs with h1 h2 h3
  · rw [v1_thav _ hhi0 hhi, v1_cshar, v1_csl, jsAnd_m14]
  · rw [v1_thav _ hhi0 hhi, v1_cshar, v1_csl, jsAnd_m14]
  · push_neg at h1
    rw [← h1]
    rw [v1_thav _ hhi0 hhi, v1_cshar, v1_csl, jsAnd_m14]
  · push_neg at h1
    rw [← h1]
    rw [v1_thav _ hhi0 hhi, v1_cshar, v1_csl, jsAnd_m14]

theorem genV4_eq (q1 q2 q3 q4 q5 q6 q7 q8 : ℚ)
    (h1 : 0 ≤ q1 ∧ q1 < 1) (h2 : 0 ≤ q2 ∧ q2 < 1) (h3 : 0 ≤ q3 ∧ q3 < 1)
    (h4 : 0 ≤ q4 ∧ q4 < 1) (h5 : 0 ≤ q5 ∧ q5 < 1) (h6 : 0 ≤ q6 ∧ q6 < 1)
    (h7 : 0 ≤ q7 ∧ q7 < 1) (h8 : 0 ≤ q8 ∧ q8 < 1) :
    ∃ n0 n1 n2 n3 n4 n5 : ℤ,
      UUID.genV4 q1 q2 q3 q4 q5 q6 q7 q8 = UUID._init n0 n1 (16384 + n2) (128 + n3) n4 n5
        ∧ 0 ≤ n0 ∧ n0 < 4294967296 ∧ 0 ≤ n1 ∧ n1 < 65536
        ∧ 0 ≤ n2 ∧ n2 < 4096 ∧ 0 ≤ n3 ∧ n3 < 64
        ∧ 0 ≤ n4 ∧ n4 < 256 ∧ 0 ≤ n5 ∧ n5 < 281474976710656 := by
  obtain ⟨n0, e0, b00, b01⟩ := getRandomInt_range q1 q2 32 (by norm_num) (by norm_num)
    h1.1 h1.2 h2.1 h2.2
  obtain ⟨n1, e1, b10, b11⟩ := getRandomInt_range q3 0 16 (by norm_num) (by norm_num)
    h3.1 h3.2 (by norm_num) (by norm_num)
  obtain ⟨n2, e2, b20, b21⟩ := getRandomInt_range q4 0 12 (by norm_num) (by norm_num)
    h4.1 h4.2 (by norm_num) (by norm_num)
  obtain ⟨n3, e3, b30, b31⟩ := getRandomInt_range q5 0 6 (by norm_num) (by norm_num)
    h5.1 h5.2 (by norm_num) (by norm_num)
  obtain ⟨n4, e4, b40, b41⟩ := getRandomInt_range q6 0 8 (by norm_num) (by norm_num)
    h6.1 h6.2 (by norm_num) (by norm_num)
  obtain ⟨n5, e5, b50, b51⟩ := getRandomInt_range q7 q8 48 (by norm_num) (by norm_num)
    h7.1 h7.2 h8.1 h8.2
  rw [show ((32 : ℤ)).toNat = 32 from rfl] at b01
  rw [show ((16 : ℤ)).toNat = 16 from rfl] at b11
  rw [show ((12 : ℤ)).toNat = 12 from rfl] at b21
  rw [show ((6 : ℤ)).toNat = 6 from rfl] at b31
  rw [show ((8 : ℤ)).toNat = 8 from rfl] at b41
  rw [show ((48 : ℤ)).toNat = 48 from rfl] at b51
  norm_num at b01 b11 b21 b31 b41 b51
  refine ⟨n0, n1, n2, n3, n4, n5, ?_, b00, b01, b10, b11, b20, b21, b30, b31, b40, b41,
    b50, b51⟩
  unfold UUID.genV4
  rw [e0, e1, e2, e3, e4, e5]
  simp only [Option.getD_some]
  rw [jsOr_0x4000L n2 b20 (by omega), jsOr_0x80L n3 b30 (by omega)]

/-! Field projections of the initializer. -/

theorem init_intFields (a0 a1 a2 a3 a4 a5 : ℤ) :
    (UUID._init a0 a1 a2 a3 a4 a5).intFields = [a0, a1, a2, a3, a4, a5] := rfl

theorem init_timeLow (a0 a1 a2 a3 a4 a5 : ℤ) :
    (UUID._init a0 a1 a2 a3 a4 a5).timeLow = a0 := rfl

theorem init_timeMid (a0 a1 a2 a3 a4 a5 : ℤ) :
    (UUID._init a0 a1 a2 a3 a4 a5).timeMid = a1 := rfl

theorem init_timeHiAndVersion (a0 a1 a2 a3 a4 a5 : ℤ) :
    (UUID._init a0 a1 a2 a3 a4 a5).timeHiAndVersion = a2 := rfl

theorem init_clockSeqHiAndReserved (a0 a1 a2 a3 a4 a5 : ℤ) :
    (UUID._init a0 a1 a2 a3 a4 a5).clockSeqHiAndReserved = a3 := rfl

theorem init_clockSeqLow (a0 a1 a2 a3 a4 a5 : ℤ) :
    (UUID._init a0 a1 a2 a3 a4 a5).clockSeqLow = a4 := rfl

theorem init_node (a0 a1 a2 a3 a4 a5 : ℤ) :
    (UUID._init a0 a1 a2 a3 a4 a5).node = a5 := rfl

theorem init_version (a0 a1 a2 a3 a4 a5 : ℤ) :
    (UUID._init a0 a1 a2 a3 a4 a5).version = jsAnd (jsShrS a2 12) 15 := rfl

/-! Hexadecimal digit characters and digit strings. -/

theorem isHexDigit_ranges (c : Char) (h : isHexDigit c = true) :
    (48 ≤ c.toNat ∧ c.toNat ≤ 57) ∨ (97 ≤ c.toNat ∧ c.toNat ≤ 102)
      ∨ (65 ≤ c.toNat ∧ c.toNat ≤ 70) := by
  simp only [isHexDigit, Bool.or_eq_true, Bool.and_eq_true, decide_eq_true_eq] at h
  omega

theorem isLowerHexDigit_ranges (c : Char) (h : isLowerHexDigit c = true) :
    (48 ≤ c.toNat ∧ c.toNat ≤ 57) ∨ (97 ≤ c.toNat ∧ c.toNat ≤ 102) := by
  simp only [isLowerHexDigit, Bool.or_eq_true, Bool.and_eq_true, decide_eq_true_eq] at h
  omega

theorem lower_hex (c : Char) (h : isLowerHexDigit c = true) : isHexDigit c = true := by
  have h1 := isLowerHexDigit_ranges c h
  simp only [isHexDigit, Bool.or_eq_true, Bool.and_eq_true, decide_eq_true_eq]
  omega

theorem hexVal_lt (c : Char) (h : isHexDigit c = true) : hexVal c < 16 := by
  have h1 := isHexDigit_ranges c h
  unfold hexVal
  split_ifs <;> omega

theorem hexVal_digitChar : ∀ d : ℕ, d < 16 → hexVal (Nat.digitChar d) = d := by decide

theorem digitChar_lower : ∀ d : ℕ, d < 16 → isLowerHexDigit (Nat.digitChar d) = true := by
  decide

theorem digitChar_hexVal (c : Char) (h : isLowerHexDigit c = true) :
    Nat.digitChar (hexVal c) = c := by
  have hr := isLowerHexDigit_ranges c h
  rw [← Char.ofNat_toNat c]
  obtain ⟨n, hn⟩ : ∃ n, c.toNat = n := ⟨_, rfl⟩
  rw [hn] at hr ⊢
  obtain ⟨h1, h2⟩ | ⟨h1, h2⟩ := hr
  · interval_cases n <;> decide
  · interval_cases n <;> decide

theorem toLower_hex (c : Char) (h : isHexDigit c = true) :
    isLowerHexDigit (Char.toLower c) = true ∧ hexVal (Char.toLower c) = hexVal c := by
  have hr := isHexDigit_ranges c h
  rw [← Char.ofNat_toNat c]
  obtain ⟨n, hn⟩ : ∃ n, c.toNat = n := ⟨_, rfl⟩
  rw [hn] at hr ⊢
  obtain ⟨h1, h2⟩ | ⟨h1, h2⟩ | ⟨h1, h2⟩ := hr
  · interval_cases n <;> exact ⟨by decide, by decide⟩
  · interval_cases n <;> exact ⟨by decide, by decide⟩
  · interval_cases n <;> exact ⟨by decide, by decide⟩

theorem digitsFuel_eq (b : ℕ) (hb : 1 < b) :
    ∀ f n : ℕ, n ≤ f → digitsFuel b f n = Nat.digits b n := by
  intro f
  induction f with
  | zero =>
    intro n hn
    have h0 : n = 0 := by omega
    subst h0
    simp [digitsFuel]
  | succ f ih =>
    intro n hn
    by_cases h0 : n = 0
    · subst h0
      simp [digitsFuel]
    · have hstep : digitsFuel b (f + 1) n = n % b :: digitsFuel b f (n / b) := by
        simp [digitsFuel, h0]
      have hlt : n / b < n := Nat.div_lt_self (by omega) hb
      rw [Nat.digits_def' hb (Nat.pos_of_ne_zero h0), hstep, ih (n / b) (by omega)]

/-! Value and shape lemmas for hexToNat. -/

theorem hexToNat_acc (l : List Char) :
    ∀ a : ℕ, l.foldl (fun x c => 16 * x + hexVal c) a = a * 16 ^ l.length + hexToNat l := by
  induction l with
  | nil => intro a; simp [hexToNat]
  | cons c t ih =>
    intro a
    have h1 : hexToNat (c :: t) = hexVal c * 16 ^ t.length + hexToNat t := by
      show List.foldl _ (16 * 0 + hexVal c) t = _
      rw [ih (16 * 0 + hexVal c)]
      ring
    show List.foldl _ (16 * a + hexVal c) t = _
    rw [ih (16 * a + hexVal c), h1]
    simp [List.length_cons, pow_succ]
    ring

theorem hexToNat_cons (c : Char) (t : List Char) :
    hexToNat (c :: t) = hexVal c * 16 ^ t.length + hexToNat t := by
  show List.foldl _ (16 * 0 + hexVal c) t = _
  rw [hexToNat_acc t (16 * 0 + hexVal c)]
  ring

theorem hexToNat_snoc (l : List Char) (c : Char) :
    hexToNat (l ++ [c]) = 16 * hexToNat l + hexVal c := by
  unfold hexToNat
  rw [List.foldl_append]
  rfl

theorem hexToNat_lt (l : List Char) (h : ∀ c ∈ l, isHexDigit c = true) :
    hexToNat l < 16 ^ l.length := by
  induction l with
  | nil => simp [hexToNat]
  | cons c t ih =>
    have hc : hexVal c < 16 := hexVal_lt c (h c (List.mem_cons_self c t))
    have ht := ih fun x hx => h x (List.mem_cons_of_mem c hx)
    have h2 : hexVal c * 16 ^ t.length ≤ 15 * 16 ^ t.length :=
      Nat.mul_le_mul_right _ (by omega)
    have h3 : (16 : ℕ) ^ (c :: t).length = 16 * 16 ^ t.length := by
      rw [List.length_cons, pow_succ]
      ring
    rw [hexToNat_cons, h3]
    omega

theorem hexToNat_replicate_zero (k : ℕ) (l : List Char) :
    hexToNat (List.replicate k '0' ++ l) = hexToNat l := by
  induction k with
  | zero => simp
  | succ k ih =>
    rw [List.replicate_succ, List.cons_append, hexToNat_cons, ih]
    have h0 : hexVal '0' = 0 := rfl
    rw [h0]
    ring

theorem hexToNat_ofDigits (ds : List ℕ) (h : ∀ d ∈ ds, d < 16) :
    hexToNat ((ds.map Nat.digitChar).reverse) = Nat.ofDigits 16 ds := by
  induction ds with
  | nil => simp [hexToNat, Nat.ofDigits]
  | cons d t ih =>
    have hd : d < 16 := h d (List.mem_cons_self d t)
    have ht := ih fun x hx => h x (List.mem_cons_of_mem d hx)
    rw [List.map_cons, List.reverse_cons, hexToNat_snoc, ht,
      hexVal_digitChar d hd, Nat.ofDigits_cons]
    ring

theorem hexToNat_map_toLower (g : List Char) (h : ∀ c ∈ g, isHexDigit c = true) :
    hexToNat (g.map Char.toLower) = hexToNat g := by
  induction g with
  | nil => rfl
  | cons c t ih =>
    have hc := (toLower_hex c (h c (List.mem_cons_self c t))).2
    have ht := ih fun x hx => h x (List.mem_cons_of_mem c hx)
    rw [List.map_cons, hexToNat_cons, hexToNat_cons, hc, ht, List.length_map]

theorem hexToNat_inj (g1 : List Char) :
    ∀ g2 : List Char, g1.length = g2.length
      → (∀ c ∈ g1, isLowerHexDigit c = true) → (∀ c ∈ g2, isLowerHexDigit c = true)
      → hexToNat g1 = hexToNat g2 → g1 = g2 := by
  induction g1 with
  | nil =>
    intro g2 hlen _ _ _
    exact (List.length_eq_zero.mp hlen.symm).symm
  | cons c t ih =>
    intro g2 hlen h1 h2 hv
    cases g2 with
    | nil => simp at hlen
    | cons c2 t2 =>
      have hlent : t.length = t2.length := by
        simp only [List.length_cons] at hlen
        omega
      have hc1 : isLowerHexDigit c = true := h1 c (List.mem_cons_self c t)
      have hc2 : isLowerHexDigit c2 = true := h2 c2 (List.mem_cons_self c2 t2)
      have hvc1 : hexVal c < 16 := hexVal_lt c (lower_hex c hc1)
      have hvc2 : hexVal c2 < 16 := hexVal_lt c2 (lower_hex c2 hc2)
      have hT1 : hexToNat t < 16 ^ t.length :=
        hexToNat_lt t fun x hx => lower_hex x (h1 x (List.mem_cons_of_mem c hx))
      have hT2 : hexToNat t2 < 16 ^ t2.length :=
        hexToNat_lt t2 fun x hx => lower_hex x (h2 x (List.mem_cons_of_mem c2 hx))
      rw [hexToNat_cons, hexToNat_cons] at hv
      rw [← hlent] at hv hT2
      have hP : (0 : ℕ) < 16 ^ t.length := by positivity
      have hdiv1 : (hexVal c * 16 ^ t.length + hexToNat t) / 16 ^ t.length = hexVal c := by
        rw [Nat.mul_comm (hexVal c), Nat.mul_add_div hP, Nat.div_eq_of_lt hT1]
        omega
      have hdiv2 : (hexVal c2 * 16 ^ t.length + hexToNat t2) / 16 ^ t.length = hexVal c2 := by
        rw [Nat.mul_comm (hexVal c2), Nat.mul_add_div hP, Nat.div_eq_of_lt hT2]
        omega
      have hceq : hexVal c = hexVal c2 := by rw [← hdiv1, ← hdiv2, hv]
      have hchar : c = c2 := by
        rw [← digitChar_hexVal c hc1, ← digitChar_hexVal c2 hc2, hceq]
      have hteq : hexToNat t = hexToNat t2 := by
        have h5 : hexVal c * 16 ^ t.length = hexVal c2 * 16 ^ t.length := by rw [hceq]
        omega
      rw [hchar, ih t2 hlent (fun x hx => h1 x (List.mem_cons_of_mem c hx))
        (fun x hx => h2 x (List.mem_cons_of_mem c2 hx)) hteq]

/-! The zero-padding aligner and the canonical hex rendering. -/

theorem alignLoop_spec :
    ∀ (f i : ℕ) (z acc : String) (m : ℕ), i ≤ f → z.data = List.replicate m '0' →
      (alignLoop f i z acc).data = List.replicate (i * m) '0' ++ acc.data := by
  intro f
  induction f with
  | zero =>
    intro i z acc m hif hz
    have h0 : i = 0 := by omega
    subst h0
    simp [alignLoop]
  | succ f ih =>
    intro i z acc m hif hz
    cases i with
    | zero => simp [alignLoop]
    | succ j =>
      have hz2 : (z ++ z).data = List.replicate (m + m) '0' := by
        rw [String.data_append, hz, ← List.replicate_add]
      have hlt : (j + 1) / 2 ≤ f := by omega
      show (alignLoop f ((j + 1) / 2) (z ++ z)
        (if (j + 1) % 2 = 1 then z ++ acc else acc)).data = _
      rw [ih ((j + 1) / 2) (z ++ z) _ (m + m) hlt hz2]
      rcases Nat.mod_two_eq_zero_or_one (j + 1) with hpar | hpar
      · rw [if_neg (by omega)]
        have h2 : (j + 1) / 2 * 2 = j + 1 := by omega
        have harith : (j + 1) / 2 * (m + m) = (j + 1) * m := by
          calc (j + 1) / 2 * (m + m) = (j + 1) / 2 * 2 * m := by ring
            _ = (j + 1) * m := by rw [h2]
        rw [harith]
      · rw [if_pos hpar, String.data_append, hz]
        have h2 : (j + 1) / 2 * 2 + 1 = j + 1 := by omega
        have harith : (j + 1) / 2 * (m + m) + m = (j + 1) * m := by
          calc (j + 1) / 2 * (m + m) + m = ((j + 1) / 2 * 2 + 1) * m := by ring
            _ = (j + 1) * m := by rw [h2]
        rw [← List.append_assoc, ← List.replicate_add, harith]

theorem align_data (radix : ℕ) (num : ℤ) (len : ℕ) :
    (UUID._getIntAligner radix num len).data
      = List.replicate (len - (jsIntToString radix num).length) '0'
        ++ (jsIntToString radix num).data := by
  simp only [UUID._getIntAligner]
  rw [alignLoop_spec (len - (jsIntToString radix num).length)
      (len - (jsIntToString radix num).length) "0" (jsIntToString radix num) 1 le_rfl rfl,
    Nat.mul_one]

theorem jsNatToString_hex (v n : ℕ) (hn : 0 < n) (hv : v < 16 ^ n) :
    (jsNatToString 16 v).data.length ≤ n
      ∧ (∀ c ∈ (jsNatToString 16 v).data, isLowerHexDigit c = true)
      ∧ hexToNat (jsNatToString 16 v).data = v := by
  by_cases h0 : v = 0
  · subst h0
    refine ⟨?_, ?_, ?_⟩
    · show (1 : ℕ) ≤ n
      omega
    · intro c hc
      have hc0 : c = '0' := by
        rw [show (jsNatToString 16 0).data = ['0'] from rfl] at hc
        simpa using hc
      rw [hc0]
      decide
    · decide
  · have hd : digitsFuel 16 v v = Nat.digits 16 v := digitsFuel_eq 16 (by norm_num) v v le_rfl
    have hds : (jsNatToString 16 v).data = ((Nat.digits 16 v).map Nat.digitChar).reverse := by
      unfold jsNatToString
      rw [if_neg h0, hd]
    have hdig_lt : ∀ d ∈ Nat.digits 16 v, d < 16 := fun d hd2 =>
      Nat.digits_lt_base (by norm_num) hd2
    refine ⟨?_, ?_, ?_⟩
    · rw [hds]
      simp only [List.length_reverse, List.length_map]
      rw [Nat.digits_len 16 v (by norm_num) h0]
      have hlog := Nat.log_lt_of_lt_pow h0 hv
      omega
    · intro c hc
      rw [hds, List.mem_reverse] at hc
      obtain ⟨d, hdmem, rfl⟩ := List.mem_map.mp hc
      exact digitChar_lower d (hdig_lt d hdmem)
    · rw [hds, hexToNat_ofDigits _ hdig_lt, Nat.ofDigits_digits]

theorem hexAlign_spec (v n : ℕ) (hn : 0 < n) (hv : v < 16 ^ n) :
    (UUID._getIntAligner 16 (v : ℤ) n).data.length = n
      ∧ (∀ c ∈ (UUID._getIntAligner 16 (v : ℤ) n).data, isLowerHexDigit c = true)
      ∧ hexToNat (UUID._getIntAligner 16 (v : ℤ) n).data = v := by
  obtain ⟨hlen, hall, hval⟩ := jsNatToString_hex v n hn hv
  have hstr : jsIntToString 16 (v : ℤ) = jsNatToString 16 v := by
    unfold jsIntToString
    rw [if_neg (by omega), Int.toNat_natCast]
  have hL : (jsNatToString 16 v).length = (jsNatToString 16 v).data.length := rfl
  rw [align_data, hstr]
  refine ⟨?_, ?_, ?_⟩
  · simp only [List.length_append, List.length_replicate]
    omega
  · intro c hc
    rcases List.mem_append.mp hc with hc | hc
    · rw [List.eq_of_mem_replicate hc]
      decide
    · exact hall c hc
  · rw [hexToNat_replicate_zero]
    exact hval

theorem align_eq_toLower (g : List Char) (n : ℕ) (hn : 0 < n) (hlen : g.length = n)
    (hhex : ∀ c ∈ g, isHexDigit c = true) :
    (UUID._getIntAligner 16 (hexToNat g : ℤ) n).data = g.map Char.toLower := by
  have hv : hexToNat g < 16 ^ n := by
    have h1 := hexToNat_lt g hhex
    rw [hlen] at h1
    exact h1
  obtain ⟨hL, hall, hval⟩ := hexAlign_spec (hexToNat g) n hn hv
  apply hexToNat_inj _ _ _ hall _ _
  · rw [hL, List.length_map, hlen]
  · intro c hc
    obtain ⟨x, hxmem, rfl⟩ := List.mem_map.mp hc
    exact (toLower_hex x (hhex x hxmem)).1
  · rw [hval, hexToNat_map_toLower g hhex]

/-! Decomposition lemmas for the parser. -/

theorem parse_of_decomp (s : String) (a b c d1 d2 e : List Char)
    (ha : a.length = 8) (hb : b.length = 4) (hc : c.length = 4)
    (hd1 : d1.length = 2) (hd2 : d2.length = 2) (he : e.length = 12)
    (hA : a.all isHexDigit = true) (hB : b.all isHexDigit = true)
    (hC : c.all isHexDigit = true) (hD1 : d1.all isHexDigit = true)
    (hD2 : d2.all isHexDigit = true) (hE : e.all isHexDigit = true)
    (hs : s.data = a ++ '-' :: (b ++ '-' :: (c ++ '-' :: (d1 ++ d2 ++ '-' :: e)))) :
    UUID.parse s = some (UUID._init (hexToNat a) (hexToNat b) (hexToNat c)
      (hexToNat d1) (hexToNat d2) (hexToNat e)) := by
  obtain ⟨a0, a, rfl⟩ := List.exists_of_length_succ a (show a.length = 7 + 1 by omega)
  simp only [List.length_cons] at ha
  obtain ⟨a1, a, rfl⟩ := List.exists_of_length_succ a (show a.length = 6 + 1 by omega)
  simp only [List.length_cons] at ha
  obtain ⟨a2, a, rfl⟩ := List.exists_of_length_succ a (show a.length = 5 + 1 by omega)
  simp only [List.length_cons] at ha
  obtain ⟨a3, a, rfl⟩ := List.exists_of_length_succ a (show a.length = 4 + 1 by omega)
  simp only [List.length_cons] at ha
  obtain ⟨a4, a, rfl⟩ := List.exists_of_length_succ a (show a.length = 3 + 1 by omega)
  simp only [List.length_cons] at ha
  obtain ⟨a5, a, rfl⟩ := List.exists_of_length_succ a (show a.length = 2 + 1 by omega)
  simp only [List.length_cons] at ha
  obtain ⟨a6, a, rfl⟩ := List.exists_of_length_succ a (show a.length = 1 + 1 by omega)
  simp only [List.length_cons] at ha
  obtain ⟨a7, a, rfl⟩ := List.exists_of_length_succ a (show a.length = 0 + 1 by omega)
  simp only [List.length_cons] at ha
  obtain rfl : a = [] := List.length_eq_zero.mp (by omega)
  obtain ⟨b0, b, rfl⟩ := List.exists_of_length_succ b (show b.length = 3 + 1 by omega)
  simp only [List.length_cons] at hb
  obtain ⟨b1, b, rfl⟩ := List.exists_of_length_succ b (show b.length = 2 + 1 by omega)
  simp only [List.length_cons] at hb
  obtain ⟨b2, b, rfl⟩ := List.exists_of_length_succ b (show b.length = 1 + 1 by omega)
  simp only [List.length_cons] at hb
  obtain ⟨b3, b, rfl⟩ := List.exists_of_length_succ b (show b.length = 0 + 1 by omega)
  simp only [List.length_cons] at hb
  obtain rfl : b = [] := List.length_eq_zero.mp (by omega)
  obtain ⟨c0, c, rfl⟩ := List.exists_of_length_succ c (show c.length = 3 + 1 by omega)
  simp only [List.length_cons] at hc
  obtain ⟨c1, c, rfl⟩ := List.exists_of_length_succ c (show c.length = 2 + 1 by omega)
  simp only [List.length_cons] at hc
  obtain ⟨c2, c, rfl⟩ := List.exists_of_length_succ c (show c.length = 1 + 1 by omega)
  simp only [List.length_cons] at hc
  obtain ⟨c3, c, rfl⟩ := List.exists_of_length_succ c (show c.length = 0 + 1 by omega)
  simp only [List.length_cons] at hc
  obtain rfl : c = [] := List.length_eq_zero.mp (by omega)
  obtain ⟨d10, d1, rfl⟩ := List.exists_of_length_succ d1 (show d1.length = 1 + 1 by omega)
  simp only [List.length_cons] at hd1
  obtain ⟨d11, d1, rfl⟩ := List.exists_of_length_succ d1 (show d1.length = 0 + 1 by omega)
  simp only [List.length_cons] at hd1
  obtain rfl : d1 = [] := List.length_eq_zero.mp (by omega)
  obtain ⟨d20, d2, rfl⟩ := List.exists_of_length_succ d2 (show d2.length = 1 + 1 by omega)
  simp only [List.length_cons] at hd2
  obtain ⟨d21, d2, rfl⟩ := List.exists_of_length_succ d2 (show d2.length = 0 + 1 by omega)
  simp only [List.length_cons] at hd2
  obtain rfl : d2 = [] := List.length_eq_zero.mp (by omega)
  obtain ⟨e0, e, rfl⟩ := List.exists_of_length_succ e (show e.length = 11 + 1 by omega)
  simp only [List.length_cons] at he
  obtain ⟨e1, e, rfl⟩ := List.exists_of_length_succ e (show e.length = 10 + 1 by omega)
  simp only [List.length_cons] at he
  obtain ⟨e2, e, rfl⟩ := List.exists_of_length_succ e (show e.length = 9 + 1 by omega)
  simp only [List.length_cons] at he
  obtain ⟨e3, e, rfl⟩ := List.exists_of_length_succ e (show e.length = 8 + 1 by omega)
  simp only [List.length_cons] at he
  obtain ⟨e4, e, rfl⟩ := List.exists_of_length_succ e (show e.length = 7 + 1 by omega)
  simp only [List.length_cons] at he
  obtain ⟨e5, e, rfl⟩ := List.exists_of_length_succ e (show e.length = 6 + 1 by omega)
  simp only [List.length_cons] at he
  obtain ⟨e6, e, rfl⟩ := List.exists_of_length_succ e (show e.length = 5 + 1 by omega)
  simp only [List.length_cons] at he
  obtain ⟨e7, e, rfl⟩ := List.exists_of_length_succ e (show e.length = 4 + 1 by omega)
  simp only [List.length_cons] at he
  obtain ⟨e8, e, rfl⟩ := List.exists_of_length_succ e (show e.length = 3 + 1 by omega)
  simp only [List.length_cons] at he
  obtain ⟨e9, e, rfl⟩ := List.exists_of_length_succ e (show e.length = 2 + 1 by omega)
  simp only [List.length_cons] at he
  obtain ⟨e10, e, rfl⟩ := List.exists_of_length_succ e (show e.length = 1 + 1 by omega)
  simp only [List.length_cons] at he
  obtain ⟨e11, e, rfl⟩ := List.exists_of_length_succ e (show e.length = 0 + 1 by omega)
  simp only [List.length_cons] at he
  obtain rfl : e = [] := List.length_eq_zero.mp (by omega)
  simp only [UUID.parse]
  rw [hs]
  split_ifs with hcond
  · rfl
  · exact absurd ⟨rfl, rfl, rfl, rfl, rfl, hA, hB, hC, hD1, hD2, hE⟩ hcond

theorem parse_some_decomp (s : String) (u : UUID) (h : UUID.parse s = some u) :
    ∃ a b c d1 d2 e : List Char,
      a.length = 8 ∧ b.length = 4 ∧ c.length = 4 ∧ d1.length = 2 ∧ d2.length = 2
        ∧ e.length = 12
        ∧ a.all isHexDigit = true ∧ b.all isHexDigit = true ∧ c.all isHexDigit = true
        ∧ d1.all isHexDigit = true ∧ d2.all isHexDigit = true ∧ e.all isHexDigit = true
        ∧ s.data = a ++ '-' :: (b ++ '-' :: (c ++ '-' :: (d1 ++ d2 ++ '-' :: e)))
        ∧ u = UUID._init (hexToNat a) (hexToNat b) (hexToNat c) (hexToNat d1)
            (hexToNat d2) (hexToNat e) := by
  simp only [UUID.parse] at h
  obtain ⟨L, hgen⟩ : ∃ L, s.data = L := ⟨s.data, rfl⟩
  rw [hgen] at h ⊢
  split_ifs at h with hcond
  · obtain ⟨h36, hg8, hg13, hg18, hg23, hA2, hB2, hC2, hD12, hD22, hE2⟩ := hcond
    obtain ⟨x0, L, rfl⟩ := List.exists_of_length_succ L (show L.length = 35 + 1 by omega)
    simp only [List.length_cons] at h36
    obtain ⟨x1, L, rfl⟩ := List.exists_of_length_succ L (show L.length = 34 + 1 by omega)
    simp only [List.length_cons] at h36
    obtain ⟨x2, L, rfl⟩ := List.exists_of_length_succ L (show L.length = 33 + 1 by omega)
    simp only [List.length_cons] at h36
    obtain ⟨x3, L, rfl⟩ := List.exists_of_length_succ L (show L.length = 32 + 1 by omega)
    simp only [List.length_cons] at h36
    obtain ⟨x4, L, rfl⟩ := List.exists_of_length_succ L (show L.length = 31 + 1 by omega)
    simp only [List.length_cons] at h36
    obtain ⟨x5, L, rfl⟩ := List.exists_of_length_succ L (show L.length = 30 + 1 by omega)
    simp only [List.length_cons] at h36
    obtain ⟨x6, L, rfl⟩ := List.exists_of_length_succ L (show L.length = 29 + 1 by omega)
    simp only [List.length_cons] at h36
    obtain ⟨x7, L, rfl⟩ := List.exists_of_length_succ L (show L.length = 28 + 1 by omega)
    simp only [List.length_cons] at h36
    obtain ⟨x8, L, rfl⟩ := List.exists_of_length_succ L (show L.length = 27 + 1 by omega)
    simp only [List.length_cons] at h36
    obtain ⟨x9, L, rfl⟩ := List.exists_of_length_succ L (show L.length = 26 + 1 by omega)
    simp only [List.length_cons] at h36
    obtain ⟨x10, L, rfl⟩ := List.exists_of_length_succ L (show L.length = 25 + 1 by omega)
    simp only [List.length_cons] at h36
    obtain ⟨x11, L, rfl⟩ := List.exists_of_length_succ L (show L.length = 24 + 1 by omega)
    simp only [List.length_cons] at h36
    obtain ⟨x12, L, rfl⟩ := List.exists_of_length_succ L (show L.length = 23 + 1 by omega)
    simp only [List.length_cons] at h36
    obtain ⟨x13, L, rfl⟩ := List.exists_of_length_succ L (show L.length = 22 + 1 by omega)
    simp only [List.length_cons] at h36
    obtain ⟨x14, L, rfl⟩ := List.exists_of_length_succ L (show L.length = 21 + 1 by omega)
    simp only [List.length_cons] at h36
    obtain ⟨x15, L, rfl⟩ := List.exists_of_length_succ L (show L.length = 20 + 1 by omega)
    simp only [List.length_cons] at h36
    obtain ⟨x16, L, rfl⟩ := List.exists_of_length_succ L (show L.length = 19 + 1 by omega)
    simp only [List.length_cons] at h36
    obtain ⟨x17, L, rfl⟩ := List.exists_of_length_succ L (show L.length = 18 + 1 by omega)
    simp only [List.length_cons] at h36
    obtain ⟨x18, L, rfl⟩ := List.exists_of_length_succ L (show L.length = 17 + 1 by omega)
    simp only [List.length_cons] at h36
    obtain ⟨x19, L, rfl⟩ := List.exists_of_length_succ L (show L.length = 16 + 1 by omega)
    simp only [List.length_cons] at h36
    obtain ⟨x20, L, rfl⟩ := List.exists_of_length_succ L (show L.length = 15 + 1 by omega)
    simp only [List.length_cons] at h36
    obtain ⟨x21, L, rfl⟩ := List.exists_of_length_succ L (show L.length = 14 + 1 by omega)
    simp only [List.length_cons] at h36
    obtain ⟨x22, L, rfl⟩ := List.exists_of_length_succ L (show L.length = 13 + 1 by omega)
    simp only [List.length_cons] at h36
    obtain ⟨x23, L, rfl⟩ := List.exists_of_length_succ L (show L.length = 12 + 1 by omega)
    simp only [List.length_cons] at h36
    obtain ⟨x24, L, rfl⟩ := List.exists_of_length_succ L (show L.length = 11 + 1 by omega)
    simp only [List.length_cons] at h36
    obtain ⟨x25, L, rfl⟩ := List.exists_of_length_succ L (show L.length = 10 + 1 by omega)
    simp only [List.length_cons] at h36
    obtain ⟨x26, L, rfl⟩ := List.exists_of_length_succ L (show L.length = 9 + 1 by omega)
    simp only [List.length_cons] at h36
    obtain ⟨x27, L, rfl⟩ := List.exists_of_length_succ L (show L.length = 8 + 1 by omega)
    simp only [List.length_cons] at h36
    obtain ⟨x28, L, rfl⟩ := List.exists_of_length_succ L (show L.length = 7 + 1 by omega)
    simp only [List.length_cons] at h36
    obtain ⟨x29, L, rfl⟩ := List.exists_of_length_succ L (show L.length = 6 + 1 by omega)
    simp only [List.length_cons] at h36
    obtain ⟨x30, L, rfl⟩ := List.exists_of_length_succ L (show L.length = 5 + 1 by omega)
    simp only [List.length_cons] at h36
    obtain ⟨x31, L, rfl⟩ := List.exists_of_length_succ L (show L.length = 4 + 1 by omega)
    simp only [List.length_cons] at h36
    obtain ⟨x32, L, rfl⟩ := List.exists_of_length_succ L (show L.length = 3 + 1 by omega)
    simp only [List.length_cons] at h36
    obtain ⟨x33, L, rfl⟩ := List.exists_of_length_succ L (show L.length = 2 + 1 by omega)
    simp only [List.length_cons] at h36
    obtain ⟨x34, L, rfl⟩ := List.exists_of_length_succ L (show L.length = 1 + 1 by omega)
    simp only [List.length_cons] at h36
    obtain ⟨x35, L, rfl⟩ := List.exists_of_length_succ L (show L.length = 0 + 1 by omega)
    simp only [List.length_cons] at h36
    obtain rfl : L = [] := List.length_eq_zero.mp (by omega)
    have hx8 : x8 = '-' := Option.some.inj hg8
    have hx13 : x13 = '-' := Option.some.inj hg13
    have hx18 : x18 = '-' := Option.some.inj hg18
    have hx23 : x23 = '-' := Option.some.inj hg23
    subst hx8
    subst hx13
    subst hx18
    subst hx23
    refine ⟨[x0, x1, x2, x3, x4, x5, x6, x7], [x9, x10, x11, x12], [x14, x15, x16, x17], [x19, x20], [x21, x22], [x24, x25, x26, x27, x28, x29, x30, x31, x32, x33, x34, x35],
      rfl, rfl, rfl, rfl, rfl, rfl, hA2, hB2, hC2, hD12, hD22, hE2, rfl, ?_⟩
    exact (Option.some.inj h).symm

/-! Encoded clock sequence of a generated version-1 UUID. -/

theorem jsOr_mul256 (x y : ℤ) (hx0 : 0 ≤ x) (hx : x < 64) (hy0 : 0 ≤ y) (hy : y < 256) :
    jsOr (x * 256) y = x * 256 + y := by
  have hor : x.toNat * 256 ||| y.toNat = x.toNat * 256 + y.toNat := by
    have h2 := Nat.mul_add_lt_is_or (show y.toNat < 2 ^ 8 by omega) x.toNat
    have h3 : (2 : ℕ) ^ 8 = 256 := by norm_num
    rw [h3] at h2
    rw [Nat.mul_comm 256 x.toNat] at h2
    exact h2.symm
  have hxt : (x * 256).toNat = x.toNat * 256 := by omega
  rw [jsOr_nat (x * 256) y (by omega) (by omega) hy0 (by omega) (by rw [hxt, hor]; omega)]
  rw [hxt, hor]
  push_cast
  omega

theorem v1seq_lt (st : UUIDState) (now : ℤ) (r : ℚ) (h : now < st.timestamp) :
    v1seq st now r = st.sequence + 1 := by
  unfold v1seq
  rw [if_pos (by omega), if_pos h]

theorem encodedClockSeq_init (a0 a1 a2 a5 s : ℤ) :
    encodedClockSeq (UUID._init a0 a1 a2 (128 + s % 16384 / 256) (s % 16384 % 256) a5)
      = s % 16384 := by
  have hm0 : 0 ≤ s % 16384 := Int.emod_nonneg _ (by norm_num)
  have hm1 : s % 16384 < 16384 := Int.emod_lt_of_pos _ (by norm_num)
  unfold encodedClockSeq
  rw [init_clockSeqHiAndReserved, init_clockSeqLow]
  rw [jsAnd_cshar_3f _ (by omega) (by omega)]
  rw [jsShl_small _ 8 (by norm_num) (by omega)
    (by rw [show ((2 : ℤ) ^ (8 : ℕ)) = 256 from by norm_num]; omega)]
  rw [show ((2 : ℤ) ^ (8 : ℕ)) = 256 from by norm_num]
  rw [jsOr_mul256 _ _ (by omega) (by omega) (by omega) (by omega)]
  omega

theorem encodedClockSeq_genV1 (st : UUIDState) (now : ℤ) (r : ℚ) :
    encodedClockSeq ((UUID.genV1 st now r).2) = v1seq st now r % 16384 := by
  rw [genV1_eq]
  exact encodedClockSeq_init ((UUID._getTimeFieldValues now).low + v1tick st now r)
    (UUID._getTimeFieldValues now).mid (4096 + (UUID._getTimeFieldValues now).hi)
    st.node (v1seq st now r)


/-! Claim theorems. -/

/-- Claim C1: the claim states that for every UUID u returned by genV4 or genV1,
parse(u.toString()) is non-null and equals u.  The code violates this: at the
generator state with stored timestamp 241773935 ms, sequence 0, node 0 and
tick 15, a same-millisecond call (clock reading 241773935) whose coin draw 0
is below 1/8 advances tick to 16; the time fields of that instant make
tf.low = 2^32 - 16, so timeLow becomes exactly 2^32, its hex rendering is the
9-digit group 100000000, and parse of the rendered string is null. -/
theorem uuid_c1_roundtrip_failure :
    (UUID.genV1 ⟨241773935, 0, 0, 15⟩ 241773935 0).2.timeLow = 4294967296
      ∧ UUID.parse ((UUID.genV1 ⟨241773935, 0, 0, 15⟩ 241773935 0).2.toString) = none := by
  decide

/-- Claim C2 counterexample: the claim states every stored integer field value
lies in [0, 2^width) because out-of-range arguments are masked or truncated on
construction.  In fact _init stores the out-of-range argument 2^32 as timeLow
unchanged, outside [0, 2^32): no masking happens. -/
theorem uuid_c2_counterexample :
    (UUID._init 4294967296 0 0 0 0 0).timeLow = 4294967296
      ∧ ¬(UUID._init 4294967296 0 0 0 0 0).timeLow < 4294967296 := by
  decide

/-- Claim C2 (amended): the initializer stores its six integer arguments
unchanged (total, never rejecting), so arguments already inside their widths
satisfy the width invariant; every v4-generated UUID and every parsed UUID
has all six integer fields inside [0, 2^width) for the declared widths
32, 16, 16, 8, 8, 48.  (Version-1 UUIDs can violate the bound on timeLow,
claim C1.) -/
theorem uuid_c2_amended :
    (∀ a0 a1 a2 a3 a4 a5 : ℤ,
      (UUID._init a0 a1 a2 a3 a4 a5).intFields = [a0, a1, a2, a3, a4, a5])
    ∧ (∀ q1 q2 q3 q4 q5 q6 q7 q8 : ℚ,
        0 ≤ q1 ∧ q1 < 1 → 0 ≤ q2 ∧ q2 < 1 → 0 ≤ q3 ∧ q3 < 1 → 0 ≤ q4 ∧ q4 < 1
        → 0 ≤ q5 ∧ q5 < 1 → 0 ≤ q6 ∧ q6 < 1 → 0 ≤ q7 ∧ q7 < 1 → 0 ≤ q8 ∧ q8 < 1
        → fieldsInRange (UUID.genV4 q1 q2 q3 q4 q5 q6 q7 q8))
    ∧ (∀ (s : String) (u : UUID), UUID.parse s = some u → fieldsInRange u) := by
  refine ⟨fun a0 a1 a2 a3 a4 a5 => init_intFields a0 a1 a2 a3 a4 a5, ?_, ?_⟩
  · intro q1 q2 q3 q4 q5 q6 q7 q8 h1 h2 h3 h4 h5 h6 h7 h8
    obtain ⟨n0, n1, n2, n3, n4, n5, hEq, b00, b01, b10, b11, b20, b21, b30, b31,
      b40, b41, b50, b51⟩ := genV4_eq q1 q2 q3 q4 q5 q6 q7 q8 h1 h2 h3 h4 h5 h6 h7 h8
    rw [hEq]
    unfold fieldsInRange
    rw [init_timeLow, init_timeMid, init_timeHiAndVersion, init_clockSeqHiAndReserved,
      init_clockSeqLow, init_node]
    refine ⟨⟨b00, b01⟩, ⟨b10, b11⟩, ⟨by omega, by omega⟩, ⟨by omega, by omega⟩,
      ⟨b40, b41⟩, ⟨b50, b51⟩⟩
  · intro s u hp
    obtain ⟨a, b, c, d1, d2, e, ha, hb, hc, hd1, hd2, he, hA, hB, hC, hD1, hD2, hE,
      _, hu⟩ := parse_some_decomp s u hp
    subst hu
    have hva := hexToNat_lt a (List.all_eq_true.mp hA)
    have hvb := hexToNat_lt b (List.all_eq_true.mp hB)
    have hvc := hexToNat_lt c (List.all_eq_true.mp hC)
    have hvd1 := hexToNat_lt d1 (List.all_eq_true.mp hD1)
    have hvd2 := hexToNat_lt d2 (List.all_eq_true.mp hD2)
    have hve := hexToNat_lt e (List.all_eq_true.mp hE)
    rw [ha] at hva
    rw [hb] at hvb
    rw [hc] at hvc
    rw [hd1] at hvd1
    rw [hd2] at hvd2
    rw [he] at hve
    norm_num at hva hvb hvc hvd1 hvd2 hve
    unfold fieldsInRange
    rw [init_timeLow, init_timeMid, init_timeHiAndVersion, init_clockSeqHiAndReserved,
      init_clockSeqLow, init_node]
    refine ⟨⟨by omega, by omega⟩, ⟨by omega, by omega⟩, ⟨by omega, by omega⟩,
      ⟨by omega, by omega⟩, ⟨by omega, by omega⟩, ⟨by omega, by omega⟩⟩

/-- Claim C2 witness: the amended claim applied at concrete inputs - the
initializer stores 4294967295 unchanged, the all-zero-draw v4 UUID is in
range, and the parsed sample UUID is in range. -/
theorem uuid_c2_witness :
    (UUID._init 4294967295 0 0 0 0 0).intFields = [4294967295, 0, 0, 0, 0, 0]
      ∧ fieldsInRange (UUID.genV4 0 0 0 0 0 0 0 0)
      ∧ fieldsInRange (UUID._init 305419896 4660 22136 154 188 20015998341138) :=
  ⟨uuid_c2_amended.1 4294967295 0 0 0 0 0,
   uuid_c2_amended.2.1 0 0 0 0 0 0 0 0 (by norm_num) (by norm_num) (by norm_num)
     (by norm_num) (by norm_num) (by norm_num) (by norm_num) (by norm_num),
   uuid_c2_amended.2.2 "12345678-1234-5678-9abc-123456789012"
     (UUID._init 305419896 4660 22136 154 188 20015998341138) (by decide)⟩

/-- Claim C3: parse accepts a string exactly when it matches the canonical
case-insensitive pattern 8 hex digits, hyphen, 4 hex digits, hyphen, 4 hex
digits, hyphen, 2 hex digits immediately followed by 2 hex digits, hyphen,
12 hex digits, returning the absent value otherwise; on success the fields
are the hex-decoded groups with the fourth hyphen-group split into two 8-bit
fields, the sample parses to timeLow 0x12345678, timeMid 0x1234,
timeHiAndVersion 0x5678 (version 5), clockSeqHiAndReserved 0x9a,
clockSeqLow 0xbc, node 0x123456789012 and renders back verbatim, and the
malformed inputs yield the absent value. -/
theorem uuid_c3_parse_pattern :
    (∀ s : String, (∃ u, UUID.parse s = some u) ↔ specCanonicalMatch s)
    ∧ (∀ (s : String) (u : UUID), UUID.parse s = some u →
        u = UUID._init (hexToNat (s.data.take 8) : ℤ) (hexToNat ((s.data.drop 9).take 4) : ℤ)
          (hexToNat ((s.data.drop 14).take 4) : ℤ) (hexToNat ((s.data.drop 19).take 2) : ℤ)
          (hexToNat ((s.data.drop 21).take 2) : ℤ) (hexToNat ((s.data.drop 24).take 12) : ℤ))
    ∧ ((UUID.parse "12345678-1234-5678-9abc-123456789012").map UUID.timeLow = some 305419896
      ∧ (UUID.parse "12345678-1234-5678-9abc-123456789012").map UUID.timeMid = some 4660
      ∧ (UUID.parse "12345678-1234-5678-9abc-123456789012").map UUID.timeHiAndVersion
          = some 22136
      ∧ (UUID.parse "12345678-1234-5678-9abc-123456789012").map UUID.version = some 5
      ∧ (UUID.parse "12345678-1234-5678-9abc-123456789012").map UUID.clockSeqHiAndReserved
          = some 154
      ∧ (UUID.parse "12345678-1234-5678-9abc-123456789012").map UUID.clockSeqLow = some 188
      ∧ (UUID.parse "12345678-1234-5678-9abc-123456789012").map UUID.node
          = some 20015998341138
      ∧ (UUID.parse "12345678-1234-5678-9abc-123456789012").map UUID.toString
          = some "12345678-1234-5678-9abc-123456789012")
    ∧ (UUID.parse "not-a-uuid" = none ∧ UUID.parse "" = none
      ∧ UUID.parse "1234567-1234-5678-9abc-123456789012" = none) := by
  refine ⟨?_, ?_, ?_, ?_⟩
  · intro s
    constructor
    · rintro ⟨u, hu⟩
      obtain ⟨a, b, c, d1, d2, e, ha, hb, hc, hd1, hd2, he, hA, hB, hC, hD1, hD2, hE,
        hs, _⟩ := parse_some_decomp s u hu
      exact ⟨a, b, c, d1, d2, e, ha, hb, hc, hd1, hd2, he, List.all_eq_true.mp hA,
        List.all_eq_true.mp hB, List.all_eq_true.mp hC, List.all_eq_true.mp hD1,
        List.all_eq_true.mp hD2, List.all_eq_true.mp hE, hs⟩
    · rintro ⟨a, b, c, d1, d2, e, ha, hb, hc, hd1, hd2, he, hA, hB, hC, hD1, hD2, hE, hs⟩
      exact ⟨_, parse_of_decomp s a b c d1 d2 e ha hb hc hd1 hd2 he
        (List.all_eq_true.mpr hA) (List.all_eq_true.mpr hB) (List.all_eq_true.mpr hC)
        (List.all_eq_true.mpr hD1) (List.all_eq_true.mpr hD2) (List.all_eq_true.mpr hE) hs⟩
  · intro s u hu
    simp only [UUID.parse] at hu
    split_ifs at hu
    exact (Option.some.inj hu).symm
  · exact ⟨by decide, by decide, by decide, by decide, by decide, by decide, by decide,
      by decide⟩
  · exact ⟨by decide, by decide, by decide⟩

/-- Claim C3 witness: the acceptance direction and the general field decoding
applied at the sample string. -/
theorem uuid_c3_witness :
    (∃ u, UUID.parse "12345678-1234-5678-9abc-123456789012" = some u)
      ∧ UUID._init 305419896 4660 22136 154 188 20015998341138
        = UUID._init
          (hexToNat ("12345678-1234-5678-9abc-123456789012".data.take 8) : ℤ)
          (hexToNat (("12345678-1234-5678-9abc-123456789012".data.drop 9).take 4) : ℤ)
          (hexToNat (("12345678-1234-5678-9abc-123456789012".data.drop 14).take 4) : ℤ)
          (hexToNat (("12345678-1234-5678-9abc-123456789012".data.drop 19).take 2) : ℤ)
          (hexToNat (("12345678-1234-5678-9abc-123456789012".data.drop 21).take 2) : ℤ)
          (hexToNat (("12345678-1234-5678-9abc-123456789012".data.drop 24).take 12) : ℤ) :=
  ⟨⟨UUID._init 305419896 4660 22136 154 188 20015998341138, by decide⟩,
   uuid_c3_parse_pattern.2.1 "12345678-1234-5678-9abc-123456789012"
     (UUID._init 305419896 4660 22136 154 188 20015998341138) (by decide)⟩

theorem genV1_snd (st : UUIDState) (now : ℤ) (r : ℚ) :
    (UUID.genV1 st now r).2
      = UUID._init ((UUID._getTimeFieldValues now).low + v1tick st now r)
          (UUID._getTimeFieldValues now).mid (4096 + (UUID._getTimeFieldValues now).hi)
          (128 + v1seq st now r % 16384 / 256) (v1seq st now r % 16384 % 256) st.node := by
  rw [genV1_eq]

/-- Claim C4: for every outcome of the random source the UUID returned by
genV4 has version 4, and for every generator state and clock reading the UUID
returned by genV1 has version 1, where the version is the recomputed value
(timeHiAndVersion >> 12) & 0xF. -/
theorem uuid_c4_version_tags :
    (∀ q1 q2 q3 q4 q5 q6 q7 q8 : ℚ,
      0 ≤ q1 ∧ q1 < 1 → 0 ≤ q2 ∧ q2 < 1 → 0 ≤ q3 ∧ q3 < 1 → 0 ≤ q4 ∧ q4 < 1
      → 0 ≤ q5 ∧ q5 < 1 → 0 ≤ q6 ∧ q6 < 1 → 0 ≤ q7 ∧ q7 < 1 → 0 ≤ q8 ∧ q8 < 1
      → (UUID.genV4 q1 q2 q3 q4 q5 q6 q7 q8).version = 4
        ∧ jsAnd (jsShrS (UUID.genV4 q1 q2 q3 q4 q5 q6 q7 q8).timeHiAndVersion 12) 15 = 4)
    ∧ (∀ (st : UUIDState) (now : ℤ) (r : ℚ),
        ((UUID.genV1 st now r).2).version = 1
        ∧ jsAnd (jsShrS ((UUID.genV1 st now r).2).timeHiAndVersion 12) 15 = 1) := by
  constructor
  · intro q1 q2 q3 q4 q5 q6 q7 q8 h1 h2 h3 h4 h5 h6 h7 h8
    obtain ⟨n0, n1, n2, n3, n4, n5, hEq, b00, b01, b10, b11, b20, b21, b30, b31,
      b40, b41, b50, b51⟩ := genV4_eq q1 q2 q3 q4 q5 q6 q7 q8 h1 h2 h3 h4 h5 h6 h7 h8
    rw [hEq, init_version, init_timeHiAndVersion]
    have hcore : jsAnd (jsShrS (16384 + n2) 12) 15 = 4 := by
      rw [jsShrS_eq _ 12 (by norm_num) (by omega) (by omega)]
      rw [show ((2 : ℤ) ^ ((12 : ℕ) % 32)) = 4096 from by norm_num]
      rw [show (16384 + n2) / 4096 = 4 from by omega]
      rw [jsAnd_m4]
      norm_num
    exact ⟨hcore, hcore⟩
  · intro st now r
    obtain ⟨hh0, hh1⟩ := tf_hi_range now
    rw [genV1_snd, init_version, init_timeHiAndVersion]
    have hcore : jsAnd (jsShrS (4096 + (UUID._getTimeFieldValues now).hi) 12) 15 = 1 := by
      rw [jsShrS_eq _ 12 (by norm_num) (by omega) (by omega)]
      rw [show ((2 : ℤ) ^ ((12 : ℕ) % 32)) = 4096 from by norm_num]
      rw [show (4096 + (UUID._getTimeFieldValues now).hi) / 4096 = 1 from by omega]
      rw [jsAnd_m4]
      norm_num
    exact ⟨hcore, hcore⟩

/-- Claim C4 witness: version tags at the all-zero draws and at a concrete
state and clock reading. -/
theorem uuid_c4_witness :
    ((UUID.genV4 0 0 0 0 0 0 0 0).version = 4
      ∧ jsAnd (jsShrS (UUID.genV4 0 0 0 0 0 0 0 0).timeHiAndVersion 12) 15 = 4)
    ∧ ((UUID.genV1 ⟨0, 0, 0, 0⟩ 5 0).2.version = 1
      ∧ jsAnd (jsShrS ((UUID.genV1 ⟨0, 0, 0, 0⟩ 5 0).2).timeHiAndVersion 12) 15 = 1) :=
  ⟨uuid_c4_version_tags.1 0 0 0 0 0 0 0 0 (by norm_num) (by norm_num) (by norm_num)
     (by norm_num) (by norm_num) (by norm_num) (by norm_num) (by norm_num),
   uuid_c4_version_tags.2 ⟨0, 0, 0, 0⟩ 5 0⟩

/-- Claim C5: every UUID returned by genV4 or genV1 has the high two bits of
the 8-bit clockSeqHiAndReserved field equal to binary 10, i.e. the field
masked with 0xC0 equals 0x80. -/
theorem uuid_c5_variant_tags :
    (∀ q1 q2 q3 q4 q5 q6 q7 q8 : ℚ,
      0 ≤ q1 ∧ q1 < 1 → 0 ≤ q2 ∧ q2 < 1 → 0 ≤ q3 ∧ q3 < 1 → 0 ≤ q4 ∧ q4 < 1
      → 0 ≤ q5 ∧ q5 < 1 → 0 ≤ q6 ∧ q6 < 1 → 0 ≤ q7 ∧ q7 < 1 → 0 ≤ q8 ∧ q8 < 1
      → jsAnd (UUID.genV4 q1 q2 q3 q4 q5 q6 q7 q8).clockSeqHiAndReserved 192 = 128)
    ∧ (∀ (st : UUIDState) (now : ℤ) (r : ℚ),
        jsAnd ((UUID.genV1 st now r).2).clockSeqHiAndReserved 192 = 128) := by
  constructor
  · intro q1 q2 q3 q4 q5 q6 q7 q8 h1 h2 h3 h4 h5 h6 h7 h8
    obtain ⟨n0, n1, n2, n3, n4, n5, hEq, b00, b01, b10, b11, b20, b21, b30, b31,
      b40, b41, b50, b51⟩ := genV4_eq q1 q2 q3 q4 q5 q6 q7 q8 h1 h2 h3 h4 h5 h6 h7 h8
    rw [hEq, init_clockSeqHiAndReserved]
    exact jsAnd_cshar_c0 n3 b30 b31
  · intro st now r
    have hm0 : 0 ≤ v1seq st now r % 16384 := Int.emod_nonneg _ (by norm_num)
    have hm1 : v1seq st now r % 16384 < 16384 := Int.emod_lt_of_pos _ (by norm_num)
    rw [genV1_snd, init_clockSeqHiAndReserved]
    exact jsAnd_cshar_c0 _ (by omega) (by omega)

/-- Claim C5 witness: the variant mask at the all-zero draws and at a concrete
state and clock reading. -/
theorem uuid_c5_witness :
    jsAnd (UUID.genV4 0 0 0 0 0 0 0 0).clockSeqHiAndReserved 192 = 128
      ∧ jsAnd ((UUID.genV1 ⟨0, 0, 0, 0⟩ 5 0).2).clockSeqHiAndReserved 192 = 128 :=
  ⟨uuid_c5_variant_tags.1 0 0 0 0 0 0 0 0 (by norm_num) (by norm_num) (by norm_num)
     (by norm_num) (by norm_num) (by norm_num) (by norm_num) (by norm_num),
   uuid_c5_variant_tags.2 ⟨0, 0, 0, 0⟩ 5 0⟩

theorem genV1_fst (st : UUIDState) (now : ℤ) (r : ℚ) :
    (UUID.genV1 st now r).1
      = { timestamp := now, sequence := v1seq st now r % 16384, node := st.node,
          tick := v1tick st now r } := by
  rw [genV1_eq]

/-- Positive complement to claim C6: while the exact product 625 * ts stays
below 2^53 - every wall-clock reading up to 2039-06-21 - the binary64
rounding is vacuous and genV1 does produce the exact
low-32 / mid-16 / high-12 split of the 100-nanosecond count, with the tick
added to the low group. -/
theorem genV1_split_below53 (st : UUIDState) (now : ℤ) (r : ℚ)
    (hnow : 0 ≤ now - gregorianReformMs)
    (h53 : 625 * (now - gregorianReformMs) < 2 ^ 53) :
    ((UUID.genV1 st now r).2).timeLow
        = ((UUID.genV1 st now r).1.timestamp - gregorianReformMs) * 10000 % 4294967296
          + (UUID.genV1 st now r).1.tick
    ∧ ((UUID.genV1 st now r).2).timeMid
        = ((UUID.genV1 st now r).1.timestamp - gregorianReformMs) * 10000
            / 4294967296 % 65536
    ∧ jsAnd ((UUID.genV1 st now r).2).timeHiAndVersion 4095
        = ((UUID.genV1 st now r).1.timestamp - gregorianReformMs) * 10000
            / 281474976710656 % 4096 := by
  obtain ⟨hh0, hh1⟩ := tf_hi_range now
  rw [genV1_fst, genV1_snd, init_timeLow, init_timeMid, init_timeHiAndVersion]
  refine ⟨?_, ?_, ?_⟩
  · show (UUID._getTimeFieldValues now).low + v1tick st now r
      = (now - gregorianReformMs) * 10000 % 4294967296 + v1tick st now r
    rw [tf_low now hnow]
  · show (UUID._getTimeFieldValues now).mid
      = (now - gregorianReformMs) * 10000 / 4294967296 % 65536
    exact tf_mid now hnow h53
  · show jsAnd (4096 + (UUID._getTimeFieldValues now).hi) 4095
      = (now - gregorianReformMs) * 10000 / 281474976710656 % 4096
    rw [jsAnd_m12]
    have h3 := tf_hi now hnow h53
    omega

/-- Claim C6: the claim asserts that _getTimeFieldValues computes the exact
low-32 / mid-16 / high-12 split of the 100-nanosecond count
N = (t - gregorianReformMs) * 10000 for every stored millisecond timestamp t.
The code violates this: at wall-clock reading 2192285707631 ms
(2039-06-21T16:15:07.631Z) the exact product 625 * ts = 9007236567269375
exceeds 2^53, the binary64 multiplication (ts / 0x100000000) * 10000 rounds
its significand up (a tie resolved to the even significand), giving 33554571
where the exact value truncates to 33554570, so the generated UUID carries
timeMid = 139 while the exact split demands (N div 2^32) mod 2^16 = 138.
The low 32-bit group, computed by exact modular arithmetic on ts & 0xFFFFFFF,
is still the exact N mod 2^32, and the high group happens to agree at this
instant. -/
theorem uuid_c6_rounding_failure :
    ((UUID.genV1 ⟨0, 0, 0, 0⟩ 2192285707631 0).2).timeMid = 139
      ∧ (2192285707631 - gregorianReformMs) * 10000 / 4294967296 % 65536 = 138
      ∧ ((UUID.genV1 ⟨0, 0, 0, 0⟩ 2192285707631 0).2).timeLow
          = (2192285707631 - gregorianReformMs) * 10000 % 4294967296
      ∧ (UUID._getTimeFieldValues 2192285707631).mid = 139
      ∧ (UUID._getTimeFieldValues 2192285707631).hi
          = (2192285707631 - gregorianReformMs) * 10000 / 281474976710656 % 4096 := by
  decide

/-- Claim C7: when a second genV1 call observes a wall clock strictly earlier
than the stored timestamp, the 14-bit clock sequence encoded in the second
UUID equals the first's plus one modulo 2^14, and in particular differs. -/
theorem uuid_c7_clock_regression (st : UUIDState) (now1 : ℤ) (r1 : ℚ) (now2 : ℤ) (r2 : ℚ)
    (h : now2 < now1) :
    encodedClockSeq ((UUID.genV1 (UUID.genV1 st now1 r1).1 now2 r2).2)
      = (encodedClockSeq ((UUID.genV1 st now1 r1).2) + 1) % 16384
    ∧ encodedClockSeq ((UUID.genV1 (UUID.genV1 st now1 r1).1 now2 r2).2)
      ≠ encodedClockSeq ((UUID.genV1 st now1 r1).2) := by
  have h1 := encodedClockSeq_genV1 st now1 r1
  have h2 := encodedClockSeq_genV1 (UUID.genV1 st now1 r1).1 now2 r2
  have hseq : v1seq (UUID.genV1 st now1 r1).1 now2 r2
      = (UUID.genV1 st now1 r1).1.sequence + 1 := by
    apply v1seq_lt
    rw [genV1_fst]
    exact h
  have hseqval : (UUID.genV1 st now1 r1).1.sequence = v1seq st now1 r1 % 16384 := by
    rw [genV1_fst]
  have hm0 : 0 ≤ v1seq st now1 r1 % 16384 := Int.emod_nonneg _ (by norm_num)
  have hm1 : v1seq st now1 r1 % 16384 < 16384 := Int.emod_lt_of_pos _ (by norm_num)
  rw [h2, hseq, hseqval, h1]
  exact ⟨by omega, by omega⟩

/-- Claim C7 witness: the clock-regression bump at a concrete state, with the
clock moving from 5 ms back to 4 ms. -/
theorem uuid_c7_witness :
    encodedClockSeq ((UUID.genV1 (UUID.genV1 ⟨0, 0, 0, 0⟩ 5 0).1 4 0).2)
      = (encodedClockSeq ((UUID.genV1 ⟨0, 0, 0, 0⟩ 5 0).2) + 1) % 16384
    ∧ encodedClockSeq ((UUID.genV1 (UUID.genV1 ⟨0, 0, 0, 0⟩ 5 0).1 4 0).2)
      ≠ encodedClockSeq ((UUID.genV1 ⟨0, 0, 0, 0⟩ 5 0).2) :=
  uuid_c7_clock_regression ⟨0, 0, 0, 0⟩ 5 0 4 0 (by norm_num)

/-- Claim C8: for every integer width x in [0, 53] and all draws in [0, 1),
_getRandomInt returns an integer in [0, 2^x), and for x < 0 or x > 53 it
returns the NaN sentinel (the absent value). -/
theorem uuid_c8_random_bits :
    (∀ (x : ℤ) (r1 r2 : ℚ), 0 ≤ x → x ≤ 53 → 0 ≤ r1 → r1 < 1 → 0 ≤ r2 → r2 < 1 →
      ∃ n : ℤ, UUID._getRandomInt r1 r2 x = some n ∧ 0 ≤ n ∧ n < 2 ^ x.toNat)
    ∧ (∀ (x : ℤ) (r1 r2 : ℚ), x < 0 ∨ 53 < x → UUID._getRandomInt r1 r2 x = none) :=
  ⟨fun x r1 r2 h0 h53 a b c d => getRandomInt_range r1 r2 x h0 h53 a b c d,
   fun x r1 r2 h => getRandomInt_none r1 r2 x h⟩

/-- Claim C8 witness: the in-range result at width 40 with zero draws, and
the sentinel at widths 54 and -1. -/
theorem uuid_c8_witness :
    (∃ n : ℤ, UUID._getRandomInt 0 0 40 = some n ∧ 0 ≤ n ∧ n < 2 ^ (40 : ℤ).toNat)
    ∧ UUID._getRandomInt 0 0 54 = none ∧ UUID._getRandomInt 0 0 (-1) = none :=
  ⟨uuid_c8_random_bits.1 40 0 0 (by norm_num) (by norm_num) (by norm_num) (by norm_num)
     (by norm_num) (by norm_num),
   uuid_c8_random_bits.2 54 0 0 (by norm_num), uuid_c8_random_bits.2 (-1) 0 0 (by norm_num)⟩

/-- Claim C9 counterexample: the claim states the seeded node has bit 0
forced to 1 (node mod 2 = 1) for every random outcome.  With all draws 0 the
seeded node is exactly 2^40, which is even: the code forces bit 40 (the
multicast bit of the first octet), not bit 0. -/
theorem uuid_c9_counterexample :
    (UUIDState.mkState 0 0 0 0).node = 1099511627776
      ∧ ¬(UUIDState.mkState 0 0 0 0).node % 2 = 1 := by
  decide

/-- Claim C9 (amended): the once-initialized state node is a 48-bit value
whose bit 40 - the least significant bit of the most significant octet, the
RFC 4122 multicast position - is forced to 1: node lies in [0, 2^48) and
(node div 2^40) mod 2 = 1; and the stored node is the node field of every
UUID returned by genV1 (which also leaves the stored node unchanged). -/
theorem uuid_c9_amended :
    (∀ q1 q2 q3 q4 : ℚ, 0 ≤ q1 ∧ q1 < 1 → 0 ≤ q2 ∧ q2 < 1 → 0 ≤ q3 ∧ q3 < 1
      → 0 ≤ q4 ∧ q4 < 1 →
      0 ≤ (UUIDState.mkState q1 q2 q3 q4).node
      ∧ (UUIDState.mkState q1 q2 q3 q4).node < 281474976710656
      ∧ (UUIDState.mkState q1 q2 q3 q4).node / 1099511627776 % 2 = 1)
    ∧ (∀ (st : UUIDState) (now : ℤ) (r : ℚ),
        ((UUID.genV1 st now r).2).node = st.node
        ∧ (UUID.genV1 st now r).1.node = st.node) := by
  constructor
  · intro q1 q2 q3 q4 h1 h2 h3 h4
    obtain ⟨n8, e8, h80, h81⟩ := getRandomInt_range q2 0 8 (by norm_num) (by norm_num)
      h2.1 h2.2 (by norm_num) (by norm_num)
    obtain ⟨n40, e40, h400, h401⟩ := getRandomInt_range q3 q4 40 (by norm_num) (by norm_num)
      h3.1 h3.2 h4.1 h4.2
    rw [show ((8 : ℤ)).toNat = 8 from rfl] at h81
    rw [show ((40 : ℤ)).toNat = 40 from rfl] at h401
    norm_num at h81 h401
    have hnode : (UUIDState.mkState q1 q2 q3 q4).node
        = jsOr n8 1 * 1099511627776 + n40 := by
      show jsOr ((UUID._getRandomInt q2 0 8).getD 0) 1 * 1099511627776
          + (UUID._getRandomInt q3 q4 40).getD 0 = _
      rw [e8, e40]
      rfl
    obtain ⟨ho1, ho2, ho3⟩ := jsOr_one n8 h80 h81
    rw [hnode]
    exact ⟨by omega, by omega, by omega⟩
  · intro st now r
    constructor
    · rw [genV1_snd, init_node]
    · rw [genV1_fst]

/-- Claim C9 witness: the amended node facts at the all-zero draws and the
node preservation at a concrete call. -/
theorem uuid_c9_witness :
    (0 ≤ (UUIDState.mkState 0 0 0 0).node
      ∧ (UUIDState.mkState 0 0 0 0).node < 281474976710656
      ∧ (UUIDState.mkState 0 0 0 0).node / 1099511627776 % 2 = 1)
    ∧ (((UUID.genV1 ⟨0, 0, 7, 0⟩ 5 0).2).node = (⟨0, 0, 7, 0⟩ : UUIDState).node
      ∧ (UUID.genV1 ⟨0, 0, 7, 0⟩ 5 0).1.node = (⟨0, 0, 7, 0⟩ : UUIDState).node) :=
  ⟨uuid_c9_amended.1 0 0 0 0 (by norm_num) (by norm_num) (by norm_num) (by norm_num),
   uuid_c9_amended.2 ⟨0, 0, 7, 0⟩ 5 0⟩

/-- Claim C10: for every string the parser accepts, parsing followed by
rendering normalizes letter case: parse(s).toString() equals s converted to
lowercase, preserving every digit and hyphen position. -/
theorem uuid_c10_lowercase_roundtrip (s : String) (u : UUID) (h : UUID.parse s = some u) :
    u.toString = lowercase s := by
  obtain ⟨a, b, c, d1, d2, e, ha, hb, hc, hd1, hd2, he, hA, hB, hC, hD1, hD2, hE, hs, hu⟩ :=
    parse_some_decomp s u h
  subst hu
  have hga := align_eq_toLower a 8 (by norm_num) ha (List.all_eq_true.mp hA)
  have hgb := align_eq_toLower b 4 (by norm_num) hb (List.all_eq_true.mp hB)
  have hgc := align_eq_toLower c 4 (by norm_num) hc (List.all_eq_true.mp hC)
  have hgd1 := align_eq_toLower d1 2 (by norm_num) hd1 (List.all_eq_true.mp hD1)
  have hgd2 := align_eq_toLower d2 2 (by norm_num) hd2 (List.all_eq_true.mp hD2)
  have hge := align_eq_toLower e 12 (by norm_num) he (List.all_eq_true.mp hE)
  apply String.ext
  show (UUID._getIntAligner 16 (hexToNat a : ℤ) 8 ++ "-"
      ++ UUID._getIntAligner 16 (hexToNat b : ℤ) 4 ++ "-"
      ++ UUID._getIntAligner 16 (hexToNat c : ℤ) 4 ++ "-"
      ++ UUID._getIntAligner 16 (hexToNat d1 : ℤ) 2
      ++ UUID._getIntAligner 16 (hexToNat d2 : ℤ) 2 ++ "-"
      ++ UUID._getIntAligner 16 (hexToNat e : ℤ) 12).data = (lowercase s).data
  rw [show (lowercase s).data = s.data.map Char.toLower from rfl, hs]
  simp only [String.data_append]
  rw [hga, hgb, hgc, hgd1, hgd2, hge]
  simp only [List.map_append, List.map_cons]
  rw [show Char.toLower '-' = '-' from by decide]
  simp [List.append_assoc]

/-- Claim C10 witness: an uppercase canonical string parses and renders back
as its lowercase form. -/
theorem uuid_c10_witness :
    UUID.parse "ABCDEF01-2345-6789-ABCD-EF0123456789"
        = some (UUID._init 2882400001 9029 26505 171 205 262788165756809)
      ∧ (UUID._init 2882400001 9029 26505 171 205 262788165756809).toString
        = lowercase "ABCDEF01-2345-6789-ABCD-EF0123456789" :=
  ⟨by decide,
   uuid_c10_lowercase_roundtrip "ABCDEF01-2345-6789-ABCD-EF0123456789" _ (by decide)⟩
